import Mathlib

/-!
Verification development for the mipsy MIPS toolchain
(lexer, recursive-descent parser, validator, two-pass assembler,
instruction-set simulator).

The TypeScript sources are shallowly embedded below.  JavaScript numbers
behave as exact integers on every path exercised here, except for the
bitwise operators, which work on 32-bit two's-complement values; those are
modelled explicitly (`toInt32`, `toUint32`, `jsAnd`, ...).  JavaScript
exceptions (`throw`, and `TypeError` from reading a property of
`undefined`) are modelled with `Except`/`Option`.  Loops are modelled with
explicit fuel; every call site passes enough fuel for the loop to finish,
mirroring the terminating behaviour of the source.
-/

/-! ## JavaScript 32-bit integer semantics -/

/-- ECMAScript ToUint32 of an integer value: reduce into `[0, 2^32)`. -/
def toUint32 (x : Int) : Int := x % 4294967296

/-- ECMAScript ToUint32, landing in `Nat` for bitwise computation. -/
def u32n (x : Int) : Nat := (x % 4294967296).toNat

/-- ECMAScript ToInt32 of an integer value: reduce into `[-2^31, 2^31)`. -/
def toInt32 (x : Int) : Int :=
  if x % 4294967296 < 2147483648 then x % 4294967296 else x % 4294967296 - 4294967296

/-- JavaScript shift counts: ToUint32 of the operand, masked to 5 bits. -/
def shiftCount (b : Int) : Nat := u32n b % 32

/-- JavaScript `a & b` (signed 32-bit result). -/
def jsAnd (a b : Int) : Int := toInt32 (Int.ofNat (u32n a &&& u32n b))

/-- JavaScript `a | b` (signed 32-bit result). -/
def jsOr (a b : Int) : Int := toInt32 (Int.ofNat (u32n a ||| u32n b))

/-- JavaScript `a ^ b` (signed 32-bit result). -/
def jsXor (a b : Int) : Int := toInt32 (Int.ofNat (u32n a ^^^ u32n b))

/-- JavaScript `~a` (signed 32-bit result). -/
def jsNot (a : Int) : Int := -(toInt32 a) - 1

/-- JavaScript `a << b` (signed 32-bit result). -/
def jsShl (a b : Int) : Int :=
  toInt32 (Int.ofNat ((u32n a <<< shiftCount b) % 4294967296))

/-- JavaScript `a >> b` (arithmetic shift; signed 32-bit result). -/
def jsShr (a b : Int) : Int := Int.fdiv (toInt32 a) (2 ^ shiftCount b)

/-- JavaScript `a >>> b` (logical shift; result in `[0, 2^32)`). -/
def jsShrU (a b : Int) : Int := Int.ofNat (u32n a >>> shiftCount b)

/-! ## Shared data model (`types.ts`) -/

/-- Absolute offset and zero-based line into the source text. -/
structure Position where
  offset : Nat
  line : Nat
deriving DecidableEq, Repr

/-- Diagnostic record; the source calls this interface `Error`. -/
structure Err where
  start : Position
  endPos : Position
  message : String
deriving DecidableEq, Repr

/-- Register-name table of `types.ts`: numeric names and the alias set. -/
def registers : List (String × Int) :=
  [("0", 0), ("1", 1), ("2", 2), ("3", 3), ("4", 4), ("5", 5), ("6", 6), ("7", 7),
   ("8", 8), ("9", 9), ("10", 10), ("11", 11), ("12", 12), ("13", 13), ("14", 14), ("15", 15),
   ("16", 16), ("17", 17), ("18", 18), ("19", 19), ("20", 20), ("21", 21), ("22", 22), ("23", 23),
   ("24", 24), ("25", 25), ("26", 26), ("27", 27), ("28", 28), ("29", 29), ("30", 30), ("31", 31),
   ("v0", 2), ("v1", 3),
   ("a0", 4), ("a1", 5), ("a2", 6), ("a3", 7),
   ("t0", 8), ("t1", 9), ("t2", 10), ("t3", 11), ("t4", 12), ("t5", 13), ("t6", 14), ("t7", 15),
   ("t8", 24), ("t9", 25),
   ("s0", 16), ("s1", 17), ("s2", 18), ("s3", 19), ("s4", 20), ("s5", 21), ("s6", 22), ("s7", 23),
   ("ra", 31), ("sp", 29), ("bp", 30),
   ("zero", 0), ("at", 1), ("gp", 28), ("fp", 30), ("k0", 26), ("k1", 27)]

/-- Instruction formats of the opcode table. -/
inductive OpType | R | I | J
deriving DecidableEq, Repr

/-- One entry of the opcode table.  Fields absent on an entry in the
source object literal are `none`/`false` here; the unused documentation
fields (`realInstruction`, `format`) are omitted because no code reads
them. -/
structure OpInfo where
  type : Option OpType := none
  opcode : Option Int := none
  funct : Option Int := none
  rt : Option Int := none
  pseudo : Bool := false
deriving DecidableEq, Repr

/-- Opcode table `ops` of `types.ts`. -/
def ops : List (String × OpInfo) :=
  [("add", {type := some .R, opcode := some 0x00, funct := some 0x20}),
   ("addu", {type := some .R, opcode := some 0x00, funct := some 0x21}),
   ("sub", {type := some .R, opcode := some 0x00, funct := some 0x22}),
   ("subu", {type := some .R, opcode := some 0x00, funct := some 0x23}),
   ("and", {type := some .R, opcode := some 0x00, funct := some 0x24}),
   ("or", {type := some .R, opcode := some 0x00, funct := some 0x25}),
   ("xor", {type := some .R, opcode := some 0x00, funct := some 0x26}),
   ("nor", {type := some .R, opcode := some 0x00, funct := some 0x27}),
   ("slt", {type := some .R, opcode := some 0x00, funct := some 0x2A}),
   ("sltu", {type := some .R, opcode := some 0x00, funct := some 0x2B}),
   ("sll", {type := some .R, opcode := some 0x00, funct := some 0x00}),
   ("srl", {type := some .R, opcode := some 0x00, funct := some 0x02}),
   ("sra", {type := some .R, opcode := some 0x00, funct := some 0x03}),
   ("sllv", {type := some .R, opcode := some 0x00, funct := some 0x04}),
   ("srlv", {type := some .R, opcode := some 0x00, funct := some 0x06}),
   ("srav", {type := some .R, opcode := some 0x00, funct := some 0x07}),
   ("jr", {type := some .R, opcode := some 0x00, funct := some 0x08}),
   ("jalr", {type := some .R, opcode := some 0x00, funct := some 0x09}),
   ("syscall", {type := some .R, opcode := some 0x00, funct := some 0x0C}),
   ("break", {type := some .R, opcode := some 0x00, funct := some 0x0D}),
   ("mfhi", {type := some .R, opcode := some 0x00, funct := some 0x10}),
   ("mthi", {type := some .R, opcode := some 0x00, funct := some 0x11}),
   ("mflo", {type := some .R, opcode := some 0x00, funct := some 0x12}),
   ("mtlo", {type := some .R, opcode := some 0x00, funct := some 0x13}),
   ("mult", {type := some .R, opcode := some 0x00, funct := some 0x18}),
   ("multu", {type := some .R, opcode := some 0x00, funct := some 0x19}),
   ("div", {type := some .R, opcode := some 0x00, funct := some 0x1A}),
   ("divu", {type := some .R, opcode := some 0x00, funct := some 0x1B}),
   ("addi", {type := some .I, opcode := some 0x08}),
   ("addiu", {type := some .I, opcode := some 0x09}),
   ("andi", {type := some .I, opcode := some 0x0C}),
   ("ori", {type := some .I, opcode := some 0x0D}),
   ("xori", {type := some .I, opcode := some 0x0E}),
   ("lui", {type := some .I, opcode := some 0x0F}),
   ("lw", {type := some .I, opcode := some 0x23}),
   ("sw", {type := some .I, opcode := some 0x2B}),
   ("lb", {type := some .I, opcode := some 0x20}),
   ("lh", {type := some .I, opcode := some 0x21}),
   ("lbu", {type := some .I, opcode := some 0x24}),
   ("lhu", {type := some .I, opcode := some 0x25}),
   ("sb", {type := some .I, opcode := some 0x28}),
   ("sh", {type := some .I, opcode := some 0x29}),
   ("slti", {type := some .I, opcode := some 0x0A}),
   ("sltiu", {type := some .I, opcode := some 0x0B}),
   ("beq", {type := some .I, opcode := some 0x04}),
   ("bne", {type := some .I, opcode := some 0x05}),
   ("bgez", {type := some .I, opcode := some 0x01, rt := some 0x01}),
   ("bgtz", {type := some .I, opcode := some 0x07, rt := some 0x00}),
   ("blez", {type := some .I, opcode := some 0x06, rt := some 0x00}),
   ("bltz", {type := some .I, opcode := some 0x01, rt := some 0x00}),
   ("bltzal", {type := some .I, opcode := some 0x01, rt := some 0x10}),
   ("bgezal", {type := some .I, opcode := some 0x01, rt := some 0x11}),
   ("j", {type := some .J, opcode := some 0x02}),
   ("jal", {type := some .J, opcode := some 0x03}),
   ("move", {pseudo := true}),
   ("li", {pseudo := true}),
   ("la", {pseudo := true}),
   ("nop", {pseudo := true}),
   ("blt", {pseudo := true}),
   ("bgt", {pseudo := true}),
   ("ble", {pseudo := true}),
   ("bge", {pseudo := true}),
   ("not", {pseudo := true}),
   ("neg", {pseudo := true}),
   ("abs", {pseudo := true}),
   ("mul", {type := some .R, opcode := some 0x1C, funct := some 0x02})]

/-- Keys of the directive table `directives` of `types.ts`.  The table
values are documentation strings which no code reads; every use site only
queries `Object.keys(directives)` or switches on the name, so the key list
is the faithful embedding. -/
def directiveNames : List String :=
  [".align", ".ascii", ".asciiz", ".byte", ".data", ".double", ".float", ".half",
   ".space", ".word", ".text", ".code", ".globl", ".extern", ".set", ".eqv",
   ".macro", ".end_macro", ".kdata", ".ktext", ".section", ".file", ".line",
   ".ent", ".end", ".org", ".repeat", ".endr", ".include"]

/-- Modelled from the spec: the repository file defining the fixed segment
base addresses (`TEXT_START`, `DATA_START`, `STACK_START` exported from
`types.ts`) is not among the provided sources.  The spec states only that
the code and data segments have fixed, widely separated base addresses and
that the stack pointer is initialised to a stack base.  The conventional
MIPS values are used; no claim below depends on the particular values,
only on their word alignment. -/
def TEXT_START : Int := 0x00400000

/-- Modelled from the spec: fixed data-segment base address (see
`TEXT_START`). -/
def DATA_START : Int := 0x10010000

/-- Modelled from the spec: initial stack-pointer value (see
`TEXT_START`). -/
def STACK_START : Int := 0x7FFFEFFC

/-! ## Association lists, modelling JavaScript `Map` -/

/-- JavaScript `Map.prototype.set`: replace the binding if the key is
present, otherwise append. -/
def assocSet {κ α : Type} [DecidableEq κ] : List (κ × α) → κ → α → List (κ × α)
  | [], k, v => [(k, v)]
  | (k', v') :: rest, k, v =>
      if k' = k then (k, v) :: rest else (k', v') :: assocSet rest k v

/-- JavaScript `Map.prototype.get` (first binding of the key). -/
def assocGet {κ α : Type} [DecidableEq κ] : List (κ × α) → κ → Option α
  | [], _ => none
  | (k', v') :: rest, k => if k' = k then some v' else assocGet rest k

theorem assocGet_assocSet_self {κ α : Type} [DecidableEq κ]
    (m : List (κ × α)) (k : κ) (v : α) : assocGet (assocSet m k v) k = some v := by
  induction m with
  | nil => simp [assocSet, assocGet]
  | cons p rest ih =>
      obtain ⟨k', v'⟩ := p
      by_cases h : k' = k <;> simp [assocSet, assocGet, h, ih]

theorem assocGet_assocSet_ne {κ α : Type} [DecidableEq κ]
    (m : List (κ × α)) (k k' : κ) (v : α) (h : k' ≠ k) :
    assocGet (assocSet m k v) k' = assocGet m k' := by
  have h' : ¬ (k = k') := fun hh => h hh.symm
  induction m with
  | nil => simp [assocSet, assocGet, h']
  | cons p rest ih =>
      obtain ⟨k0, v0⟩ := p
      by_cases h0 : k0 = k
      · subst h0
        simp [assocSet, assocGet, h']
      · simp [assocSet, assocGet, h0, ih]

/-! ## The memory image (`Code` class of `code-gen.ts`) -/

/-- Sparse memory image: a map from word-aligned address to a 32-bit word. -/
structure Code where
  mem : List (Int × Int)
deriving DecidableEq, Repr

/-- Word-aligning an address (`Math.floor(address / 4) * 4`). -/
def alignAddressToWordBoundary (address : Int) : Int := Int.fdiv address 4 * 4

/-- The `word = this.mem.get(wordAddress) || 0` read of the source. -/
def Code.getWordD (c : Code) (wordAddress : Int) : Int :=
  (assocGet c.mem wordAddress).getD 0

/-- Store one byte into the containing word (`Code.storeByte`). -/
def Code.storeByte (c : Code) (address byte : Int) : Code :=
  let byte := jsAnd byte 0xFF
  let wordAddress := alignAddressToWordBoundary address
  let word := c.getWordD wordAddress
  let bytePosition := Int.tmod address 4
  let clearMask := jsNot (jsShl 0xFF (bytePosition * 8))
  let word := jsAnd word clearMask
  let word := jsOr word (jsShl byte (bytePosition * 8))
  { mem := assocSet c.mem wordAddress word }

/-- Store one half-word; throws on misaligned addresses
(`Code.storeHalfWord`). -/
def Code.storeHalfWord (c : Code) (address halfword : Int) : Except String Code :=
  if Int.tmod address 2 ≠ 0 then .error "Address must be half-word aligned"
  else
    let halfword := jsAnd halfword 0xFFFF
    let wordAddress := alignAddressToWordBoundary address
    let word := c.getWordD wordAddress
    let halfwordPosition := Int.tmod address 4 / 2
    let clearMask := jsNot (jsShl 0xFFFF (halfwordPosition * 16))
    let word := jsAnd word clearMask
    let word := jsOr word (jsShl halfword (halfwordPosition * 16))
    .ok { mem := assocSet c.mem wordAddress word }

/-- Store one word; throws on misaligned addresses (`Code.storeWord`).
The word is stored unmasked, exactly as in the source. -/
def Code.storeWord (c : Code) (address word : Int) : Except String Code :=
  if Int.tmod address 4 ≠ 0 then .error "Address must be word aligned"
  else .ok { mem := assocSet c.mem address word }

/-- Read one byte out of the containing word (`Code.readByte`). -/
def Code.readByte (c : Code) (address : Int) : Int :=
  let wordAddress := alignAddressToWordBoundary address
  let word := c.getWordD wordAddress
  let bytePosition := Int.tmod address 4
  jsAnd (jsShr word (bytePosition * 8)) 0xFF

/-- Read one half-word; throws on misaligned addresses
(`Code.readHalfWord`). -/
def Code.readHalfWord (c : Code) (address : Int) : Except String Int :=
  if Int.tmod address 2 ≠ 0 then .error "Address must be half-word aligned"
  else
    let wordAddress := alignAddressToWordBoundary address
    let word := c.getWordD wordAddress
    let halfwordPosition := Int.tmod address 4 / 2
    .ok (jsAnd (jsShr word (halfwordPosition * 16)) 0xFFFF)

/-- Read one word; throws on misaligned addresses (`Code.readWord`). -/
def Code.readWord (c : Code) (address : Int) : Except String Int :=
  if Int.tmod address 4 ≠ 0 then .error "Address must be word aligned"
  else .ok (c.getWordD address)

/-! ## Lexer (`lex.ts`) -/

/-- Token kinds of `lex.ts`. -/
inductive TokenType
  | IDENTIFIER | REGISTER | NUMBER | STRING
  | DIRECTIVE | LABEL
  | COMMA
  | SPACE | TAB | NEWLINE
  | LEFT_PAREN | RIGHT_PAREN
  | COMMENT
  | INVALID
  | EOF
deriving DecidableEq, Repr

/-- The optional `value` field of a token: a decimal number for NUMBER
tokens, the decoded characters for STRING tokens, absent otherwise. -/
inductive TokenValue
  | none
  | num (n : Int)
  | str (s : List Char)
deriving DecidableEq, Repr

/-- Token record; `endPos` is the `end` field of the source. -/
structure Token where
  type : TokenType
  start : Position
  endPos : Position
  value : TokenValue := .none
deriving DecidableEq, Repr

/-- Character class of `isDigit` in `lex.ts`. -/
def isDigitChar (c : Char) : Bool := '0' ≤ c && c ≤ '9'

/-- Character class of `isAlpha` in `lex.ts` (letters and underscore). -/
def isAlphaChar (c : Char) : Bool :=
  ('a' ≤ c && c ≤ 'z') || ('A' ≤ c && c ≤ 'Z') || c = '_'

/-- The `isDigit(peek()) || isAlpha(peek())` continuation test used by the
identifier, directive and register scanners. -/
def isAlnumChar (c : Char) : Bool := isDigitChar c || isAlphaChar c

/-- Decimal value accumulation `value = value * 10 + parseInt(digit)`. -/
def digitsVal (ds : List Char) : Int :=
  ds.foldl (fun acc d => acc * 10 + (Int.ofNat d.toNat - Int.ofNat '0'.toNat)) 0

/-- Escape mapping inside `parseString`. -/
def escapeCharMap (e : Char) : Char :=
  if e = 'n' then '\n'
  else if e = 't' then '\t'
  else if e = 'r' then '\r'
  else if e = '0' then Char.ofNat 0
  else if e = '\\' then '\\'
  else e

/-- Body of `parseString` after the opening delimiter has been consumed:
returns the decoded value, the characters consumed, and the rest of the
input.  An escaped character is decoded via `escapeCharMap`; the loop
stops at an unescaped delimiter (which is consumed) or at end of input. -/
def parseStringAux (delim : Char) : List Char → (List Char × List Char × List Char)
  | [] => ([], [], [])
  | c :: cs =>
      if c = delim then ([], [c], cs)
      else if c = '\\' then
        match cs with
        | [] => ([], [c], [])
        | e :: cs' =>
            let r := parseStringAux delim cs'
            (escapeCharMap e :: r.1, c :: e :: r.2.1, r.2.2)
      else
        let r := parseStringAux delim cs
        (c :: r.1, c :: r.2.1, r.2.2)

/-- Outcome of scanning one token at the head of the remaining input. -/
structure ScanResult where
  consumed : List Char
  rest : List Char
  type : TokenType
  value : TokenValue := .none
  err : Option String := none
deriving Repr

/-- Advance a position over a run of consumed characters: the offset grows
by one per character and the line by one per `'\n'` consumed, exactly as
`advance()` does. -/
def advancePos (p : Position) (consumed : List Char) : Position :=
  ⟨p.offset + consumed.length, p.line + consumed.count '\n'⟩

/-- One iteration of the scanning loop of `lex`: classify the head
character, consume the token's characters, and report its kind, value and
possible diagnostic message.  The branch order mirrors the source
`switch`. -/
def scanOne (c : Char) (rs : List Char) : ScanResult :=
  if c = ' ' then ⟨[c], rs, .SPACE, .none, none⟩
  else if c = '\r' then
    match rs with
    | '\n' :: rs' => ⟨[c, '\n'], rs', .NEWLINE, .none, none⟩
    | _ => ⟨[c], rs, .NEWLINE, .none, none⟩
  else if c = '\n' then ⟨[c], rs, .NEWLINE, .none, none⟩
  else if c = '\t' then ⟨[c], rs, .TAB, .none, none⟩
  else if c = '#' then
    ⟨c :: rs.takeWhile (· ≠ '\n'), rs.dropWhile (· ≠ '\n'), .COMMENT, .none, none⟩
  else if c = '$' then
    let name := rs.takeWhile isAlnumChar
    let rest := rs.dropWhile isAlnumChar
    if (assocGet registers (String.mk name)).isSome then
      ⟨c :: name, rest, .REGISTER, .none, none⟩
    else
      ⟨c :: name, rest, .INVALID, .none, some "Invalid register name"⟩
  else if c = '(' then ⟨[c], rs, .LEFT_PAREN, .none, none⟩
  else if c = ')' then ⟨[c], rs, .RIGHT_PAREN, .none, none⟩
  else if c = ',' then ⟨[c], rs, .COMMA, .none, none⟩
  else if c = '.' then
    ⟨c :: rs.takeWhile isAlnumChar, rs.dropWhile isAlnumChar, .DIRECTIVE, .none, none⟩
  else if c = '"' ∨ c = '\'' then
    let r := parseStringAux c rs
    let consumedAll := c :: r.2.1
    -- `peekPrev() === c`: the character just before the final position is
    -- the last consumed character of the whole scan.
    if consumedAll.getLast? = some c then
      ⟨consumedAll, r.2.2, .STRING, .str r.1, none⟩
    else
      ⟨consumedAll, r.2.2, .INVALID, .none, some "Unclosed string"⟩
  else if c = '-' ∨ c = '+' then
    let ws := rs.takeWhile (fun x => x = '\t' ∨ x = ' ')
    let rs1 := rs.dropWhile (fun x => x = '\t' ∨ x = ' ')
    let ds := rs1.takeWhile isDigitChar
    let rest := rs1.dropWhile isDigitChar
    let sign : Int := if c = '-' then -1 else 1
    ⟨c :: (ws ++ ds), rest, .NUMBER, .num (sign * digitsVal ds), none⟩
  else if isDigitChar c then
    ⟨c :: rs.takeWhile isDigitChar, rs.dropWhile isDigitChar, .NUMBER,
      .num (digitsVal (c :: rs.takeWhile isDigitChar)), none⟩
  else if isAlphaChar c then
    let name := rs.takeWhile isAlnumChar
    match rs.dropWhile isAlnumChar with
    | ':' :: rest' => ⟨c :: (name ++ [':']), rest', .LABEL, .none, none⟩
    | rest0 => ⟨c :: name, rest0, .IDENTIFIER, .none, none⟩
  else ⟨[c], rs, .INVALID, .none, some "Invalid character"⟩

/-- Scanning loop of `lex`, by fuel on the remaining length; each
iteration consumes at least one character, so `length + 1` fuel always
suffices and the fuel-exhausted branch is unreachable at the call site
in `lexChars`. -/
def lexLoop : Nat → List Char → Position → (List Token × List Err)
  | 0, _, pos => ([⟨.EOF, pos, pos, .none⟩], [])
  | _ + 1, [], pos => ([⟨.EOF, pos, pos, .none⟩], [])
  | fuel + 1, c :: rs, pos =>
      let r := scanOne c rs
      let newPos := advancePos pos r.consumed
      let tail := lexLoop fuel r.rest newPos
      (⟨r.type, pos, newPos, r.value⟩ :: tail.1,
       (match r.err with
        | some m => [⟨pos, newPos, m⟩]
        | none => []) ++ tail.2)

/-- The `lex` entry point over a character list: `(tokens, diagnostics)`. -/
def lexChars (source : List Char) : List Token × List Err :=
  lexLoop (source.length + 1) source ⟨0, 0⟩

/-- The `lex` entry point of `lex.ts`. -/
def lex (source : String) : List Token × List Err := lexChars source.data

/-! ## Parser (`parse.ts`) -/

/-- Instruction-operand nodes.  The parser produces register, immediate
and displacement operands.  The `labelArg` constructor mirrors the
`InstructionLabelNode` shape that `code-gen.ts` imports and tests for
(`NodeType.INSTRUCTION_LABEL`); the parser never constructs it, so the
code-generator branches guarded by it are dead code, embedded faithfully
below. -/
inductive InstrArg
  | register (start endP : Position) (register : Token)
  | immediate (start endP : Position) (immediate : Token)
  | displacement (start endP : Position) (disp register : Token)
  | labelArg (start endP : Position) (label : Token)
deriving DecidableEq, Repr

/-- Directive-argument node: the raw token run of one argument. -/
structure DirArg where
  start : Position
  endPos : Position
  tokens : List Token
deriving DecidableEq, Repr

/-- Syntax nodes produced by the parser. -/
inductive PNode
  | directive (start endP : Position) (op : Token) (args : List DirArg)
  | instruction (start endP : Position) (op : Token) (args : List InstrArg)
  | label (start endP : Position) (tokens : List Token)
deriving DecidableEq, Repr

/-- Parser state: the `current` index plus the accumulated nodes and
diagnostics. -/
structure PState where
  cur : Nat
  nodes : List PNode
  errors : List Err
deriving DecidableEq, Repr

/-- JavaScript `source.slice(a, b)` for the offsets arising here
(`0 ≤ a ≤ b`). -/
def sliceStr (source : List Char) (a b : Nat) : String :=
  String.mk ((source.drop a).take (b - a))

/-- The parser's `match(...types)`: at EOF report whether EOF was asked
for without advancing; otherwise consume one token when its type is
listed.  Reading past the token array is a `TypeError` (`none`). -/
def matchTok (tokens : List Token) (types : List TokenType) (cur : Nat) :
    Option (Bool × Nat) := do
  let t ← tokens[cur]?
  if t.type = .EOF then pure (types.contains .EOF, cur)
  else if types.contains t.type then pure (true, cur + 1)
  else pure (false, cur)

/-- The parser's `advance()`: return the current token, consuming it
unless it is EOF. -/
def advanceTok (tokens : List Token) (cur : Nat) : Option (Token × Nat) := do
  let t ← tokens[cur]?
  if t.type = .EOF then pure (t, cur) else pure (t, cur + 1)

/-- The parser's `skipWhitespaces()` loop. -/
def skipWhitespacesP (tokens : List Token) : Nat → Nat → Option Nat
  | 0, _ => none
  | fuel + 1, cur => do
      let (m, cur') ← matchTok tokens [.TAB, .SPACE, .COMMENT] cur
      if m then skipWhitespacesP tokens fuel cur' else pure cur'

/-- The scanning loop of `recover`:
`while (!isAtEnd() && !match(NEWLINE)) advance()`. -/
def recoverLoopP (tokens : List Token) : Nat → Nat → Option Nat
  | 0, _ => none
  | fuel + 1, cur => do
      let t ← tokens[cur]?
      if t.type = .EOF then pure cur
      else if t.type = .NEWLINE then pure (cur + 1)
      else recoverLoopP tokens fuel (cur + 1)

/-- The parser's `recover(message)`: skip to the end of the line and
record a diagnostic spanning from the point of failure to the last
consumed token. -/
def recoverP (tokens : List Token) (msg : String) (st : PState) : Option PState := do
  let start := st.cur
  let cur ← recoverLoopP tokens (tokens.length + 2) st.cur
  let ts ← tokens[start]?
  let te ← if cur = 0 then none else tokens[cur - 1]?
  pure { st with cur := cur, errors := st.errors ++ [⟨ts.start, te.endPos, msg⟩] }

/-- Loop body of `peekNextWithoutWhitespaces`. -/
def peekNextWWAux (tokens : List Token) : Nat → Nat → Option Token
  | 0, _ => none
  | fuel + 1, start =>
      if start < tokens.length then
        match tokens[start + 1]? with
        | none => none
        | some t =>
            if t.type = .COMMENT ∨ t.type = .TAB ∨ t.type = .SPACE then
              peekNextWWAux tokens fuel (start + 1)
            else some t
      else tokens[tokens.length - 1]?

/-- The parser's `peekNextWithoutWhitespaces()`. -/
def peekNextWW (tokens : List Token) (cur : Nat) : Option Token :=
  peekNextWWAux tokens (tokens.length + 2) cur

/-- The parser's `label()`. -/
def labelP (tokens : List Token) (st : PState) : Option PState := do
  let cur ← skipWhitespacesP tokens (tokens.length + 2) st.cur
  let start := cur
  let (m, cur) ← matchTok tokens [.LABEL] cur
  if !m then recoverP tokens "Expected a label" { st with cur := cur }
  else do
    let ts ← tokens[start]?
    let te ← if cur = 0 then none else tokens[cur - 1]?
    pure { st with
             cur := cur,
             nodes := st.nodes ++
               [.label ts.start te.endPos ((tokens.drop start).take (cur - start))] }

/-- The parser's `registerArgument()`. -/
def registerArgumentP (tokens : List Token) (st : PState) :
    Option (InstrArg × PState) := do
  let cur ← skipWhitespacesP tokens (tokens.length + 2) st.cur
  let (register, cur) ← advanceTok tokens cur
  pure (.register register.start register.endPos register, { st with cur := cur })

/-- The parser's `immediateArgument()`. -/
def immediateArgumentP (tokens : List Token) (st : PState) :
    Option (InstrArg × PState) := do
  let cur ← skipWhitespacesP tokens (tokens.length + 2) st.cur
  let (immediate, cur) ← advanceTok tokens cur
  pure (.immediate immediate.start immediate.endPos immediate, { st with cur := cur })

/-- The parser's `displacementArgument()`; `none` in the first component
is the source's `null` return after recovery. -/
def displacementArgumentP (tokens : List Token) (st : PState) :
    Option (Option InstrArg × PState) := do
  let cur ← skipWhitespacesP tokens (tokens.length + 2) st.cur
  let (disp, cur) ← advanceTok tokens cur
  let cur ← skipWhitespacesP tokens (tokens.length + 2) cur
  let (m, cur) ← matchTok tokens [.LEFT_PAREN] cur
  if !m then do
    let st' ← recoverP tokens "Expected \x27(\x27 after displacement value" { st with cur := cur }
    pure (none, st')
  else do
    let cur ← skipWhitespacesP tokens (tokens.length + 2) cur
    let t ← tokens[cur]?
    if t.type ≠ .REGISTER then do
      let st' ← recoverP tokens "Expected register in displacement addressing mode"
        { st with cur := cur }
      pure (none, st')
    else do
      let (register, cur) ← advanceTok tokens cur
      let cur ← skipWhitespacesP tokens (tokens.length + 2) cur
      let (m2, cur) ← matchTok tokens [.RIGHT_PAREN] cur
      if !m2 then do
        let st' ← recoverP tokens "Expected \x27)\x27 after register in displacement addressing mode"
          { st with cur := cur }
        pure (none, st')
      else do
        let te ← if cur = 0 then none else tokens[cur - 1]?
        pure (some (.displacement disp.start te.endPos disp register), { st with cur := cur })

/-- The parser's `instructionArgument()`. -/
def instructionArgumentP (tokens : List Token) (st : PState) :
    Option (Option InstrArg × PState) := do
  let cur ← skipWhitespacesP tokens (tokens.length + 2) st.cur
  let t ← tokens[cur]?
  match t.type with
  | .REGISTER => do
      let (arg, st') ← registerArgumentP tokens { st with cur := cur }
      pure (some arg, st')
  | .IDENTIFIER => do
      let nt ← peekNextWW tokens cur
      if nt.type = .LEFT_PAREN then displacementArgumentP tokens { st with cur := cur }
      else do
        let (arg, st') ← immediateArgumentP tokens { st with cur := cur }
        pure (some arg, st')
  | .NUMBER => do
      let nt ← peekNextWW tokens cur
      if nt.type = .LEFT_PAREN then displacementArgumentP tokens { st with cur := cur }
      else do
        let (arg, st') ← immediateArgumentP tokens { st with cur := cur }
        pure (some arg, st')
  | _ => do
      let st' ← recoverP tokens
        "Expected an instruction argument (register, displacement or immediate)"
        { st with cur := cur }
      pure (none, st')

/-- Argument-list loop of `instruction()` (the `while` after the first
argument). -/
def instrArgsLoopP (tokens : List Token) :
    Nat → List InstrArg → PState → Option (List InstrArg × PState)
  | 0, _, _ => none
  | fuel + 1, args, st => do
      let t ← tokens[st.cur]?
      if t.type = .NEWLINE ∨ t.type = .EOF then pure (args, st)
      else do
        let (m, cur) ← matchTok tokens [.COMMA] st.cur
        if !m then do
          let st' ← recoverP tokens "Expected comma between instruction arguments"
            { st with cur := cur }
          pure (args, st')
        else do
          let cur ← skipWhitespacesP tokens (tokens.length + 2) cur
          let (argOpt, st') ← instructionArgumentP tokens { st with cur := cur }
          let args := match argOpt with | some a => args ++ [a] | none => args
          let cur2 ← skipWhitespacesP tokens (tokens.length + 2) st'.cur
          instrArgsLoopP tokens fuel args { st' with cur := cur2 }

/-- The parser's `instruction()`. -/
def instructionP (source : List Char) (tokens : List Token) (st : PState) :
    Option PState := do
  let cur ← skipWhitespacesP tokens (tokens.length + 2) st.cur
  let start := cur
  let op ← tokens[cur]?
  let opName := sliceStr source op.start.offset op.endPos.offset
  if ¬ (assocGet ops opName).isSome then
    recoverP tokens ("Unknown instruction \x27" ++ opName ++ "\x27") { st with cur := cur }
  else do
    let (_, cur) ← advanceTok tokens cur
    let cur ← skipWhitespacesP tokens (tokens.length + 2) cur
    let t ← tokens[cur]?
    let (args, st2) ←
      if t.type = .NEWLINE ∨ t.type = .EOF then pure (([] : List InstrArg), { st with cur := cur })
      else do
        let (argOpt, st1) ← instructionArgumentP tokens { st with cur := cur }
        let args0 := match argOpt with | some a => [a] | none => ([] : List InstrArg)
        let cur1 ← skipWhitespacesP tokens (tokens.length + 2) st1.cur
        instrArgsLoopP tokens (tokens.length + 2) args0 { st1 with cur := cur1 }
    let ts ← tokens[start]?
    let te ← if st2.cur = 0 then none else tokens[st2.cur - 1]?
    let node := PNode.instruction ts.start te.endPos op args
    let cur ← skipWhitespacesP tokens (tokens.length + 2) st2.cur
    let (_, cur) ← matchTok tokens [.NEWLINE] cur
    pure { st2 with cur := cur, nodes := st2.nodes ++ [node] }

/-- Token-collecting loop of `directiveArgument()`. -/
def dirArgTokensLoopP (tokens : List Token) :
    Nat → List Token → Nat → Option (List Token × Nat)
  | 0, _, _ => none
  | fuel + 1, acc, cur => do
      let t ← tokens[cur]?
      if t.type = .EOF ∨ t.type = .COMMA ∨ t.type = .NEWLINE then pure (acc, cur)
      else do
        let (tk, cur) ← advanceTok tokens cur
        let cur ← skipWhitespacesP tokens (tokens.length + 2) cur
        dirArgTokensLoopP tokens fuel (acc ++ [tk]) cur

/-- The parser's `directiveArgument()`.  Reading `args[0].start` of an
empty argument-token array is a `TypeError` (`none` overall). -/
def directiveArgumentP (tokens : List Token) (st : PState) :
    Option (Option DirArg × PState) := do
  let cur ← skipWhitespacesP tokens (tokens.length + 2) st.cur
  let (argToks, cur) ← dirArgTokensLoopP tokens (tokens.length + 2) [] cur
  if tokens.length = 0 then do
    let st' ← recoverP tokens "Expected a directive argument" { st with cur := cur }
    pure (none, st')
  else
    match argToks with
    | [] => none
    | a :: _ =>
        pure (some ⟨a.start, (argToks.getLastD a).endPos, argToks⟩, { st with cur := cur })

/-- Argument-list loop of `directive()`. -/
def dirArgsLoopP (tokens : List Token) :
    Nat → List DirArg → PState → Option (List DirArg × PState)
  | 0, _, _ => none
  | fuel + 1, args, st => do
      let t ← tokens[st.cur]?
      if t.type = .NEWLINE ∨ t.type = .EOF then pure (args, st)
      else do
        let (m, cur) ← matchTok tokens [.COMMA] st.cur
        if !m then do
          let st' ← recoverP tokens "Expected comma between directive arguments"
            { st with cur := cur }
          pure (args, st')
        else do
          let cur ← skipWhitespacesP tokens (tokens.length + 2) cur
          let (argOpt, st') ← directiveArgumentP tokens { st with cur := cur }
          let args := match argOpt with | some a => args ++ [a] | none => args
          let cur2 ← skipWhitespacesP tokens (tokens.length + 2) st'.cur
          dirArgsLoopP tokens fuel args { st' with cur := cur2 }

/-- The parser's `directive()`. -/
def directiveP (source : List Char) (tokens : List Token) (st : PState) :
    Option PState := do
  let cur ← skipWhitespacesP tokens (tokens.length + 2) st.cur
  let start := cur
  let op ← tokens[cur]?
  let opName := sliceStr source op.start.offset op.endPos.offset
  let (m, cur) ← matchTok tokens [.DIRECTIVE] cur
  if !m then recoverP tokens "Expected a directive" { st with cur := cur }
  else if ¬ (directiveNames.contains opName) then
    recoverP tokens ("Unknown directive \x27" ++ opName ++ "\x27") { st with cur := cur }
  else do
    let cur ← skipWhitespacesP tokens (tokens.length + 2) cur
    let t ← tokens[cur]?
    let (args, st2) ←
      if t.type = .NEWLINE ∨ t.type = .EOF then pure (([] : List DirArg), { st with cur := cur })
      else do
        let (argOpt, st1) ← directiveArgumentP tokens { st with cur := cur }
        let args0 := match argOpt with | some a => [a] | none => ([] : List DirArg)
        let cur1 ← skipWhitespacesP tokens (tokens.length + 2) st1.cur
        dirArgsLoopP tokens (tokens.length + 2) args0 { st1 with cur := cur1 }
    let ts ← tokens[start]?
    let te ← if st2.cur = 0 then none else tokens[st2.cur - 1]?
    let node := PNode.directive ts.start te.endPos op args
    let cur ← skipWhitespacesP tokens (tokens.length + 2) st2.cur
    let (_, cur) ← matchTok tokens [.NEWLINE] cur
    pure { st2 with cur := cur, nodes := st2.nodes ++ [node] }

/-- Main statement loop of `parse`. -/
def parseLoopP (source : List Char) (tokens : List Token) : Nat → PState → Option PState
  | 0, _ => none
  | fuel + 1, st => do
      let t ← tokens[st.cur]?
      if t.type = .EOF then pure st
      else do
        let (m1, cur) ← matchTok tokens [.NEWLINE] st.cur
        if m1 then parseLoopP source tokens fuel { st with cur := cur }
        else do
          let (m2, cur) ← matchTok tokens [.INVALID] cur
          if m2 then parseLoopP source tokens fuel { st with cur := cur }
          else do
            let (m3, cur) ← matchTok tokens [.SPACE, .TAB, .COMMENT] cur
            if m3 then parseLoopP source tokens fuel { st with cur := cur }
            else do
              let t2 ← tokens[cur]?
              match t2.type with
              | .LABEL => do
                  let st' ← labelP tokens { st with cur := cur }
                  parseLoopP source tokens fuel st'
              | .IDENTIFIER => do
                  let st' ← instructionP source tokens { st with cur := cur }
                  parseLoopP source tokens fuel st'
              | .DIRECTIVE => do
                  let st' ← directiveP source tokens { st with cur := cur }
                  parseLoopP source tokens fuel st'
              | .EOF => parseLoopP source tokens fuel { st with cur := cur }
              | _ => do
                  let st' ← recoverP tokens "Expected a directive, instruction, or label"
                    { st with cur := cur }
                  parseLoopP source tokens fuel st'

/-- The `parse` entry point of `parse.ts`: `(nodes, diagnostics)`, or
`none` when the source would throw a `TypeError`. -/
def parseTokens (source : List Char) (tokens : List Token) :
    Option (List PNode × List Err) :=
  (parseLoopP source tokens (tokens.length + 2) ⟨0, [], []⟩).map
    (fun st => (st.nodes, st.errors))

/-! ## Validator (`validate.ts`) -/

/-- Section state tracked by the validator and the code generator. -/
inductive SectionType | CODE | DATA
deriving DecidableEq, Repr

/-- The lexeme of a token: `source.slice(token.start.offset, token.end.offset)`. -/
def lexemeOf (source : List Char) (t : Token) : List Char :=
  (source.drop t.start.offset).take (t.endPos.offset - t.start.offset)

/-- JavaScript whitespace recognised by `parseInt`/`Number` trimming (the
ASCII subset; no token lexeme contains the Unicode spaces). -/
def isJsWhitespace (c : Char) : Bool :=
  c = ' ' || c = '\t' || c = '\n' || c = '\r' || c = '\x0B' || c = '\x0C'

/-- `Number.parseInt(lexeme, 10)`: skip whitespace, optional sign, then a
maximal digit run; `none` is NaN (no digits). -/
def parseIntDec (s : List Char) : Option Int :=
  let s1 := s.dropWhile isJsWhitespace
  match s1 with
  | '-' :: rest =>
      let ds := rest.takeWhile isDigitChar
      if ds.isEmpty then none else some (-(digitsVal ds))
  | '+' :: rest =>
      let ds := rest.takeWhile isDigitChar
      if ds.isEmpty then none else some (digitsVal ds)
  | _ =>
      let ds := s1.takeWhile isDigitChar
      if ds.isEmpty then none else some (digitsVal ds)

/-- JavaScript `Number(lexeme)` restricted to the decimal-integer grammar:
trimmed, `""` is `0`, otherwise an optional sign followed by digits only.
Full ToNumber also accepts floats, hex and `Infinity`, but no single-token
lexeme of this language matches those forms while also giving `parseInt` a
value that agrees with them, so the validator's
`num !== Number(lexeme) || Number.isNaN(num)` test has the same outcome
under this grammar (`none` models both NaN and any non-integer value,
either of which makes the test fail). -/
def numberJS (s : List Char) : Option Int :=
  let s1 := (((s.dropWhile isJsWhitespace).reverse).dropWhile isJsWhitespace).reverse
  match s1 with
  | [] => some 0
  | '-' :: rest =>
      if !rest.isEmpty && rest.all isDigitChar then some (-(digitsVal rest)) else none
  | '+' :: rest =>
      if !rest.isEmpty && rest.all isDigitChar then some (digitsVal rest) else none
  | _ => if s1.all isDigitChar then some (digitsVal s1) else none

/-- The validator's directive range test:
`num !== Number(lexeme) || Number.isNaN(num) || num < lo || num > hi`. -/
def numCheckFails (s : List Char) (lo hi : Int) : Bool :=
  match parseIntDec s, numberJS s with
  | some n, some m => decide (n ≠ m ∨ n < lo ∨ hi < n)
  | _, _ => true

/-- The validator's instruction range test:
`isNaN(value) || value < lo || value > hi`. -/
def parseIntCheckFails (s : List Char) (lo hi : Int) : Bool :=
  match parseIntDec s with
  | some v => decide (v < lo ∨ hi < v)
  | none => true

/-- Span start of an instruction operand node. -/
def InstrArg.startPos : InstrArg → Position
  | .register s _ _ => s
  | .immediate s _ _ => s
  | .displacement s _ _ _ => s
  | .labelArg s _ _ => s

/-- Span end of an instruction operand node. -/
def InstrArg.stopPos : InstrArg → Position
  | .register _ e _ => e
  | .immediate _ e _ => e
  | .displacement _ e _ _ => e
  | .labelArg _ e _ => e

/-- The `arg.type === NodeType.INSTRUCTION_REGISTER` test. -/
def InstrArg.isRegister : InstrArg → Bool
  | .register .. => true
  | _ => false

/-- Push `Expected register as argument i+1` diagnostics for the indexed
prefix of the operand list (the `for` loops of the shape validators). -/
def regArgErrors (opL : String) (checked : List InstrArg) (errors : List Err) : List Err :=
  checked.enum.foldl
    (fun errs p =>
      if p.2.isRegister then errs
      else errs ++ [⟨p.2.startPos, p.2.stopPos,
        "Expected register as argument " ++ toString (p.1 + 1) ++ " for " ++ opL ++ " instruction"⟩])
    errors

/-- The validator's `validateRType`. -/
def validateRTypeV (source : List Char) (opL : String) (start endP : Position)
    (args : List InstrArg) (errors : List Err) : List Err :=
  match args with
  | [a0, a1, a2] => regArgErrors opL [a0, a1, a2] errors
  | _ => errors ++ [⟨start, endP,
      "Expected 3 arguments for " ++ opL ++ " instruction, got " ++ toString args.length⟩]

/-- The validator's `validateShift`. -/
def validateShiftV (source : List Char) (opL : String) (start endP : Position)
    (args : List InstrArg) (errors : List Err) : List Err :=
  match args with
  | [a0, a1, a2] =>
      let errors := regArgErrors opL [a0, a1] errors
      match a2 with
      | .immediate _ _ immTok =>
          if parseIntCheckFails (lexemeOf source immTok) 0 31 then
            errors ++ [⟨a2.startPos, a2.stopPos,
              "Shift amount must be in range 0-31 for " ++ opL ++ " instruction"⟩]
          else errors
      | _ => errors ++ [⟨a2.startPos, a2.stopPos,
          "Expected immediate value as shift amount for " ++ opL ++ " instruction"⟩]
  | _ => errors ++ [⟨start, endP,
      "Expected 3 arguments for " ++ opL ++ " instruction, got " ++ toString args.length⟩]

/-- The validator's `validateIType`. -/
def validateITypeV (source : List Char) (opL : String) (start endP : Position)
    (args : List InstrArg) (errors : List Err) : List Err :=
  match args with
  | [a0, a1, a2] =>
      let errors := regArgErrors opL [a0, a1] errors
      match a2 with
      | .immediate _ _ immTok =>
          if parseIntCheckFails (lexemeOf source immTok) (-32768) 32767 then
            errors ++ [⟨a2.startPos, a2.stopPos,
              "Immediate value must be a 16-bit signed integer for " ++ opL ++ " instruction"⟩]
          else errors
      | _ => errors ++ [⟨a2.startPos, a2.stopPos,
          "Expected immediate value as argument 3 for " ++ opL ++ " instruction"⟩]
  | _ => errors ++ [⟨start, endP,
      "Expected 3 arguments for " ++ opL ++ " instruction, got " ++ toString args.length⟩]

/-- The validator's `validateLoadStore`. -/
def validateLoadStoreV (source : List Char) (opL : String) (start endP : Position)
    (args : List InstrArg) (errors : List Err) : List Err :=
  match args with
  | [a0, a1] =>
      let errors :=
        if a0.isRegister then errors
        else errors ++ [⟨a0.startPos, a0.stopPos,
          "Expected register as first argument for " ++ opL ++ " instruction"⟩]
      match a1 with
      | .displacement _ _ dispTok _ =>
          if parseIntCheckFails (lexemeOf source dispTok) (-32768) 32767 then
            errors ++ [⟨a1.startPos, a1.stopPos,
              "Displacement must be a 16-bit signed integer for " ++ opL ++ " instruction"⟩]
          else errors
      | _ => errors ++ [⟨a1.startPos, a1.stopPos,
          "Expected displacement as second argument for " ++ opL ++ " instruction"⟩]
  | _ => errors ++ [⟨start, endP,
      "Expected 2 arguments for " ++ opL ++ " instruction, got " ++ toString args.length⟩]

/-- The validator's `validateBranch`. -/
def validateBranchV (source : List Char) (opL : String) (start endP : Position)
    (args : List InstrArg) (errors : List Err) : List Err :=
  match args with
  | [a0, a1, a2] =>
      let errors := regArgErrors opL [a0, a1] errors
      match a2 with
      | .immediate .. => errors
      | _ => errors ++ [⟨a2.startPos, a2.stopPos,
          "Expected label as argument 3 for " ++ opL ++ " instruction"⟩]
  | _ => errors ++ [⟨start, endP,
      "Expected 3 arguments for " ++ opL ++ " instruction, got " ++ toString args.length⟩]

/-- The validator's `validateBranchZ`. -/
def validateBranchZV (source : List Char) (opL : String) (start endP : Position)
    (args : List InstrArg) (errors : List Err) : List Err :=
  match args with
  | [a0, a1] =>
      let errors :=
        if a0.isRegister then errors
        else errors ++ [⟨a0.startPos, a0.stopPos,
          "Expected register as first argument for " ++ opL ++ " instruction"⟩]
      match a1 with
      | .immediate .. => errors
      | _ => errors ++ [⟨a1.startPos, a1.stopPos,
          "Expected label as second argument for " ++ opL ++ " instruction"⟩]
  | _ => errors ++ [⟨start, endP,
      "Expected 2 arguments for " ++ opL ++ " instruction, got " ++ toString args.length⟩]

/-- The validator's `validateJump`. -/
def validateJumpV (source : List Char) (opL : String) (start endP : Position)
    (args : List InstrArg) (errors : List Err) : List Err :=
  match args with
  | [a0] =>
      match a0 with
      | .immediate .. => errors
      | _ => errors ++ [⟨a0.startPos, a0.stopPos,
          "Expected label as argument for " ++ opL ++ " instruction"⟩]
  | _ => errors ++ [⟨start, endP,
      "Expected 1 argument for " ++ opL ++ " instruction, got " ++ toString args.length⟩]

/-- The validator's `validateJumpr`. -/
def validateJumprV (source : List Char) (opL : String) (start endP : Position)
    (args : List InstrArg) (errors : List Err) : List Err :=
  match args with
  | [a0] =>
      if a0.isRegister then errors
      else errors ++ [⟨a0.startPos, a0.stopPos,
        "Expected register as argument for " ++ opL ++ " instruction"⟩]
  | _ => errors ++ [⟨start, endP,
      "Expected 1 argument for " ++ opL ++ " instruction, got " ++ toString args.length⟩]

/-- The validator's `validateMove`. -/
def validateMoveV (source : List Char) (opL : String) (start endP : Position)
    (args : List InstrArg) (errors : List Err) : List Err :=
  match args with
  | [a0, a1] => regArgErrors opL [a0, a1] errors
  | _ => errors ++ [⟨start, endP,
      "Expected 2 arguments for " ++ opL ++ " instruction, got " ++ toString args.length⟩]

/-- The validator's `validateLi`. -/
def validateLiV (source : List Char) (opL : String) (start endP : Position)
    (args : List InstrArg) (errors : List Err) : List Err :=
  match args with
  | [a0, a1] =>
      let errors :=
        if a0.isRegister then errors
        else errors ++ [⟨a0.startPos, a0.stopPos,
          "Expected register as first argument for " ++ opL ++ " instruction"⟩]
      match a1 with
      | .immediate _ _ immTok =>
          if parseIntCheckFails (lexemeOf source immTok) (-2147483648) 2147483647 then
            errors ++ [⟨a1.startPos, a1.stopPos,
              "Immediate value must be a 32-bit signed integer for " ++ opL ++ " instruction"⟩]
          else errors
      | _ => errors ++ [⟨a1.startPos, a1.stopPos,
          "Expected immediate value as second argument for " ++ opL ++ " instruction"⟩]
  | _ => errors ++ [⟨start, endP,
      "Expected 2 arguments for " ++ opL ++ " instruction, got " ++ toString args.length⟩]

/-- The validator's `validateLa`. -/
def validateLaV (source : List Char) (opL : String) (start endP : Position)
    (args : List InstrArg) (errors : List Err) : List Err :=
  match args with
  | [a0, a1] =>
      let errors :=
        if a0.isRegister then errors
        else errors ++ [⟨a0.startPos, a0.stopPos,
          "Expected register as first argument for " ++ opL ++ " instruction"⟩]
      match a1 with
      | .immediate .. => errors
      | _ => errors ++ [⟨a1.startPos, a1.stopPos,
          "Expected label as second argument for " ++ opL ++ " instruction"⟩]
  | _ => errors ++ [⟨start, endP,
      "Expected 2 arguments for " ++ opL ++ " instruction, got " ++ toString args.length⟩]

/-- The validator's `validateStandalone`. -/
def validateStandaloneV (source : List Char) (opL : String) (start endP : Position)
    (args : List InstrArg) (errors : List Err) : List Err :=
  if args.length ≠ 0 then
    errors ++ [⟨start, endP,
      "Expected no arguments for " ++ opL ++ " instruction, got " ++ toString args.length⟩]
  else errors

/-- The validator's `validateInstruction`: section check plus dispatch on
the mnemonic. -/
def validateInstructionV (source : List Char) (sec : SectionType)
    (start endP : Position) (op : Token) (args : List InstrArg)
    (errors : List Err) : List Err :=
  let errors :=
    if sec ≠ .CODE then
      errors ++ [⟨start, endP, "Instruction used outside of code section"⟩]
    else errors
  let opL := sliceStr source op.start.offset op.endPos.offset
  if opL = "add" ∨ opL = "addu" ∨ opL = "sub" ∨ opL = "subu" ∨ opL = "and" ∨
     opL = "or" ∨ opL = "xor" ∨ opL = "nor" ∨ opL = "slt" ∨ opL = "sltu" then
    validateRTypeV source opL start endP args errors
  else if opL = "sll" ∨ opL = "srl" ∨ opL = "sra" then
    validateShiftV source opL start endP args errors
  else if opL = "addi" ∨ opL = "addiu" ∨ opL = "andi" ∨ opL = "ori" ∨
          opL = "xori" ∨ opL = "slti" ∨ opL = "sltiu" then
    validateITypeV source opL start endP args errors
  else if opL = "lb" ∨ opL = "lbu" ∨ opL = "lh" ∨ opL = "lhu" ∨ opL = "lw" ∨
          opL = "sb" ∨ opL = "sh" ∨ opL = "sw" then
    validateLoadStoreV source opL start endP args errors
  else if opL = "beq" ∨ opL = "bne" then
    validateBranchV source opL start endP args errors
  else if opL = "bgez" ∨ opL = "bgtz" ∨ opL = "blez" ∨ opL = "bltz" then
    validateBranchZV source opL start endP args errors
  else if opL = "j" ∨ opL = "jal" then
    validateJumpV source opL start endP args errors
  else if opL = "jr" then
    validateJumprV source opL start endP args errors
  else if opL = "move" then
    validateMoveV source opL start endP args errors
  else if opL = "li" then
    validateLiV source opL start endP args errors
  else if opL = "la" then
    validateLaV source opL start endP args errors
  else if opL = "syscall" ∨ opL = "nop" then
    validateStandaloneV source opL start endP args errors
  else
    errors ++ [⟨start, endP, "Unknown instruction " ++ opL⟩]

/-- The validator's `validateDirective`.  The unconditional `return`
inside the per-argument loops of `.byte`, `.half`, `.word`, `.ascii`,
`.asciiz`, `.float` and `.double` means only the first argument is ever
examined; `.align` reads `args[0].tokens[0]` without first checking that
an argument exists, which is a `TypeError` (`none`) on an empty argument
list. -/
def validateDirectiveV (source : List Char) (sec : SectionType)
    (start endP : Position) (op : Token) (args : List DirArg)
    (errors : List Err) : Option (SectionType × List Err) :=
  let opName := sliceStr source op.start.offset op.endPos.offset
  if opName = ".byte" then
    if sec = .CODE then
      some (sec, errors ++ [⟨start, endP, "Data directive .byte used in code section"⟩])
    else
      match args with
      | [] => some (sec, errors)
      | arg :: _ => do
          let t0 ← arg.tokens.head?
          if numCheckFails (lexemeOf source t0) (-128) 255 then
            some (sec, errors ++ [⟨t0.start, t0.endPos, "Invalid byte value in .byte directive"⟩])
          else some (sec, errors)
  else if opName = ".data" then
    match args with
    | [] => some (.DATA, errors)
    | a :: _ =>
        some (.DATA, errors ++ [⟨a.start, a.endPos, "Unexpected arguments in .data directive"⟩])
  else if opName = ".half" then
    if sec = .CODE then
      some (sec, errors ++ [⟨start, endP, "Data directive .half used in code section"⟩])
    else
      match args with
      | [] => some (sec, errors)
      | arg :: _ => do
          let t0 ← arg.tokens.head?
          if numCheckFails (lexemeOf source t0) (-32768) 65535 then
            some (sec, errors ++
              [⟨t0.start, t0.endPos, "Invalid halfword value in .half directive"⟩])
          else some (sec, errors)
  else if opName = ".word" then
    if sec = .CODE then
      some (sec, errors ++ [⟨start, endP, "Data directive .word used in code section"⟩])
    else
      match args with
      | [] => some (sec, errors)
      | arg :: _ => do
          let t0 ← arg.tokens.head?
          -- the source's message says `.half` here (copy-paste in the source)
          if numCheckFails (lexemeOf source t0) (-2147483648) 4294967295 then
            some (sec, errors ++
              [⟨t0.start, t0.endPos, "Invalid word value in .half directive"⟩])
          else some (sec, errors)
  else if opName = ".text" ∨ opName = ".code" then
    match args with
    | [] => some (.CODE, errors)
    | a :: _ =>
        some (.CODE, errors ++ [⟨a.start, a.endPos, "Unexpected arguments in .text directive"⟩])
  else if opName = ".align" then
    if sec = .CODE then
      some (sec, errors ++ [⟨start, endP, "Data directive .align used in code section"⟩])
    else
      let errors :=
        if args.length > 1 then
          errors ++ [⟨start, endP, "Expected one numerice argument in .align directive"⟩]
        else errors
      do
        let a0 ← args.head?
        let t0 ← a0.tokens.head?
        if numCheckFails (lexemeOf source t0) 0 16 then
          some (sec, errors ++
            [⟨a0.start, a0.endPos, "Invalid alignment value in .align directive"⟩])
        else some (sec, errors)
  else if opName = ".ascii" ∨ opName = ".asciiz" then
    if sec = .CODE then
      some (sec, errors ++
        [⟨start, endP, "Data directive " ++ opName ++ " used in code section"⟩])
    else
      match args with
      | [] => some (sec, errors)
      | arg :: _ => do
          let t0 ← arg.tokens.head?
          if t0.type ≠ .STRING then
            some (sec, errors ++ [⟨arg.start, arg.endPos,
              "Expected string arguments in " ++ opName ++ " directive"⟩])
          else some (sec, errors)
  else if opName = ".float" ∨ opName = ".double" then
    if sec = .CODE then
      some (sec, errors ++
        [⟨start, endP, "Data directive " ++ opName ++ " used in code section"⟩])
    else
      match args with
      | [] => some (sec, errors)
      | arg :: _ => do
          let t0 ← arg.tokens.head?
          if t0.type ≠ .NUMBER then
            some (sec, errors ++ [⟨arg.start, arg.endPos,
              "Expected floating-point arguments in " ++ opName ++ " directive"⟩])
          else some (sec, errors)
  else if opName = ".section" then
    some (sec, errors ++ [⟨start, endP, "Unsupported directive"⟩])
  else some (sec, errors)

/-- Node walk of `validate`. -/
def validateLoop (source : List Char) :
    List PNode → SectionType → List Err → Option (List Err)
  | [], _, errors => some errors
  | node :: rest, sec, errors =>
      match node with
      | .directive st en op args => do
          let (sec', errors') ← validateDirectiveV source sec st en op args errors
          validateLoop source rest sec' errors'
      | .instruction st en op args =>
          validateLoop source rest sec (validateInstructionV source sec st en op args errors)
      | .label .. => validateLoop source rest sec errors

/-- The `validate` entry point of `validate.ts`: the diagnostics list
(the primary result of the source is always `null`), or `none` when the
source would throw a `TypeError`.  The `tokens` parameter is unused, as in
the source. -/
def validateM (source : List Char) (tokens : List Token) (nodes : List PNode) :
    Option (List Err) :=
  validateLoop source nodes .CODE []

/-! ## Code generator (`code-gen.ts`) -/

/-- JavaScript `String.prototype.replace('$', '')`: drop the first
occurrence of the character. -/
def replaceFirstChar (c : Char) : List Char → List Char
  | [] => []
  | x :: xs => if x = c then xs else x :: replaceFirstChar c xs

/-- The code generator's `getRegisterNumber`, applied to the register
token of the operand node. -/
def getRegisterNumberTok (source : List Char) (regTok : Token) : Except String Int :=
  let regName := String.mk (replaceFirstChar '$' (lexemeOf source regTok))
  match assocGet registers regName with
  | some n => .ok n
  | none => .error ("Unknown register: $" ++ regName)

/-- A token's `value as number`.  A non-numeric `value` is `undefined` (or
a string) in the source and reaches only bitwise operators or
`storeWord`; under ToInt32, `undefined` coerces to 0, which is the value
used here.  No claim exercises a non-numeric value on these paths. -/
def tokenValueNum (t : Token) : Int :=
  match t.value with
  | .num n => n
  | _ => 0

/-- JavaScript `Math.ceil(address / alignment) * alignment` for a nonzero
integer alignment. -/
def jsAlignCeil (a al : Int) : Int := -(Int.fdiv (-a) al) * al

/-- Placeholder for the IEEE-754 bit pattern of a `.float` argument
(`Float32Array`/`Uint32Array` reinterpretation in the source).  No claim
in this development concerns `.float`/`.double` emission; the bit-pattern
functions are left as the constant 0 on this otherwise-unexercised path. -/
def float32Bits (value : Int) : Int := 0

/-- Placeholder for the high word of a `.double` bit pattern (see
`float32Bits`). -/
def doubleBitsHigh (value : Int) : Int := 0

/-- Placeholder for the low word of a `.double` bit pattern (see
`float32Bits`). -/
def doubleBitsLow (value : Int) : Int := 0

/-- Sum of `(arg.tokens[0].value as string).length` over `.ascii`
arguments in pass 1 (`+ 1` per argument when `zTerm` for `.asciiz`).
Reading `tokens[0]` of an empty run is a `TypeError`; a non-string value
turns the running address into NaN in JavaScript, modelled as a failure
(no claim reaches either). -/
def asciiLenSum (args : List DirArg) (zTerm : Bool) : Except String Int :=
  args.foldlM
    (fun acc a => do
      match a.tokens.head? with
      | none => .error "TypeError: reading a property of undefined"
      | some t =>
          match t.value with
          | .str s => .ok (acc + Int.ofNat s.length + (if zTerm then 1 else 0))
          | _ => .error "NaN data address from a non-string .ascii value")
    0

/-- Pass 1 of `generate` (`mapLabelToAdress`): resolve label addresses
with independent running code/data addresses. -/
def mapLabelLoop (source : List Char) :
    List PNode → Int → Int → SectionType → List (String × Int) →
    Except String (List (String × Int))
  | [], _, _, _, acc => .ok acc
  | node :: rest, dataA, codeA, sec, acc =>
      match node with
      | .label st en _ =>
          let labelName := sliceStr source st.offset (en.offset - 1)
          let acc :=
            if sec = .CODE then assocSet acc labelName codeA
            else assocSet acc labelName dataA
          mapLabelLoop source rest dataA codeA sec acc
      | .instruction .. => mapLabelLoop source rest dataA (codeA + 4) sec acc
      | .directive _ _ op args =>
          let opName := sliceStr source op.start.offset op.endPos.offset
          if opName = ".data" then mapLabelLoop source rest dataA codeA .DATA acc
          else if opName = ".text" ∨ opName = ".code" then
            mapLabelLoop source rest dataA codeA .CODE acc
          else if opName = ".section" then .error "Unsupported directive: .section"
          else if opName = ".align" then
            match args with
            | [] => mapLabelLoop source rest dataA codeA sec acc
            | a0 :: _ =>
                match a0.tokens.head? with
                | none => .error "TypeError: reading a property of undefined"
                | some t0 =>
                    let alignValue := tokenValueNum t0
                    let alignment := jsShl 1 alignValue
                    if sec = .DATA then
                      mapLabelLoop source rest (jsAlignCeil dataA alignment) codeA sec acc
                    else
                      mapLabelLoop source rest dataA (jsAlignCeil codeA alignment) sec acc
          else if opName = ".ascii" then do
            let len ← asciiLenSum args false
            mapLabelLoop source rest (dataA + len) codeA sec acc
          else if opName = ".asciiz" then do
            let len ← asciiLenSum args true
            mapLabelLoop source rest (dataA + len) codeA sec acc
          else if opName = ".byte" then
            mapLabelLoop source rest (dataA + Int.ofNat args.length) codeA sec acc
          else if opName = ".half" then
            mapLabelLoop source rest (dataA + Int.ofNat args.length * 2) codeA sec acc
          else if opName = ".word" then
            mapLabelLoop source rest (dataA + Int.ofNat args.length * 4) codeA sec acc
          else if opName = ".float" then
            mapLabelLoop source rest (dataA + Int.ofNat args.length * 4) codeA sec acc
          else if opName = ".double" then
            mapLabelLoop source rest (dataA + Int.ofNat args.length * 8) codeA sec acc
          else mapLabelLoop source rest dataA codeA sec acc

/-- Store the UTF-16 code units of a string argument byte by byte
(`charCodeAt`; all source characters are in the BMP, where the code unit
equals the code point). -/
def storeAsciiChars (code : Code) (addr : Int) : List Char → (Code × Int)
  | [] => (code, addr)
  | ch :: restChars =>
      storeAsciiChars (code.storeByte addr (Int.ofNat ch.toNat)) (addr + 1) restChars

/-- Emission of `.ascii` (and `.asciiz` with the null terminator). -/
def emitAscii (args : List DirArg) (code : Code) (addr : Int) (zTerm : Bool) :
    Except String (Code × Int) :=
  args.foldlM
    (fun p a => do
      match a.tokens.head? with
      | none => .error "TypeError: reading a property of undefined"
      | some t =>
          match t.value with
          | .str s =>
              let q := storeAsciiChars p.1 p.2 s
              if zTerm then .ok (q.1.storeByte q.2 0, q.2 + 1) else .ok q
          | _ => .error "NaN data address from a non-string .ascii value")
    (code, addr)

/-- Emission of `.byte` arguments. -/
def emitBytes (args : List DirArg) (code : Code) (addr : Int) :
    Except String (Code × Int) :=
  args.foldlM
    (fun p a => do
      match a.tokens.head? with
      | none => .error "TypeError: reading a property of undefined"
      | some t => .ok (p.1.storeByte p.2 (tokenValueNum t), p.2 + 1))
    (code, addr)

/-- Emission of `.half` arguments. -/
def emitHalves (args : List DirArg) (code : Code) (addr : Int) :
    Except String (Code × Int) :=
  args.foldlM
    (fun p a => do
      match a.tokens.head? with
      | none => .error "TypeError: reading a property of undefined"
      | some t => do
          let c ← p.1.storeHalfWord p.2 (tokenValueNum t)
          .ok (c, p.2 + 2))
    (code, addr)

/-- Emission of `.word` arguments. -/
def emitWords (args : List DirArg) (code : Code) (addr : Int) :
    Except String (Code × Int) :=
  args.foldlM
    (fun p a => do
      match a.tokens.head? with
      | none => .error "TypeError: reading a property of undefined"
      | some t => do
          let c ← p.1.storeWord p.2 (tokenValueNum t)
          .ok (c, p.2 + 4))
    (code, addr)

/-- Emission of `.float` arguments (bit patterns via `float32Bits`). -/
def emitFloats (args : List DirArg) (code : Code) (addr : Int) :
    Except String (Code × Int) :=
  args.foldlM
    (fun p a => do
      match a.tokens.head? with
      | none => .error "TypeError: reading a property of undefined"
      | some t => do
          let c ← p.1.storeWord p.2 (float32Bits (tokenValueNum t))
          .ok (c, p.2 + 4))
    (code, addr)

/-- Emission of `.double` arguments (high word first). -/
def emitDoubles (args : List DirArg) (code : Code) (addr : Int) :
    Except String (Code × Int) :=
  args.foldlM
    (fun p a => do
      match a.tokens.head? with
      | none => .error "TypeError: reading a property of undefined"
      | some t => do
          let c ← p.1.storeWord p.2 (doubleBitsHigh (tokenValueNum t))
          let c ← c.storeWord (p.2 + 4) (doubleBitsLow (tokenValueNum t))
          .ok (c, p.2 + 8))
    (code, addr)

/-- Machine-code word of a non-pseudo instruction node in pass 2 of
`generate`.  Argument patterns that do not match the expected shapes leave
the partially built word (just the opcode field), exactly as the guarded
`if` blocks of the source do. -/
def encodeInstruction (source : List Char) (labels : List (String × Int))
    (instructionName : String) (instruction : OpInfo) (args : List InstrArg)
    (codeSectionAddress : Int) : Except String Int :=
  if instruction.type = some .R then
    let machineCode := jsShl (instruction.opcode.getD 0) 26
    if instructionName = "jr" then
      match args with
      | [.register _ _ regTok] => do
          let rs ← getRegisterNumberTok source regTok
          .ok (jsOr machineCode (jsShl rs 21))
      | _ => .ok machineCode
    else if instructionName = "syscall" ∨ instructionName = "break" then
      .ok machineCode
    else if instructionName = "sll" ∨ instructionName = "srl" ∨ instructionName = "sra" then
      match args with
      | [.register _ _ r0, .register _ _ r1, .immediate _ _ immTok] => do
          let rd ← getRegisterNumberTok source r0
          let rt ← getRegisterNumberTok source r1
          let shamt := tokenValueNum immTok
          .ok (jsOr machineCode
            (jsOr (jsOr (jsOr (jsShl rt 16) (jsShl rd 11)) (jsShl (jsAnd shamt 0x1F) 6))
              (instruction.funct.getD 0)))
      | _ => .ok machineCode
    else
      match args with
      | [.register _ _ r0, .register _ _ r1, .register _ _ r2] => do
          let rd ← getRegisterNumberTok source r0
          let rs ← getRegisterNumberTok source r1
          let rt ← getRegisterNumberTok source r2
          .ok (jsOr machineCode
            (jsOr (jsOr (jsOr (jsShl rs 21) (jsShl rt 16)) (jsShl rd 11))
              (instruction.funct.getD 0)))
      | _ => .ok machineCode
  else if instruction.type = some .I then
    let machineCode := jsShl (instruction.opcode.getD 0) 26
    if instructionName = "lui" then
      match args with
      | [.register _ _ r0, .immediate _ _ immTok] => do
          let rt ← getRegisterNumberTok source r0
          let imm := tokenValueNum immTok
          .ok (jsOr machineCode (jsOr (jsShl rt 16) (jsAnd imm 0xFFFF)))
      | _ => .ok machineCode
    else if instructionName = "beq" ∨ instructionName = "bne" then
      match args with
      | [.register _ _ r0, .register _ _ r1, .labelArg _ _ labelTok] => do
          let rs ← getRegisterNumberTok source r0
          let rt ← getRegisterNumberTok source r1
          let labelName := sliceStr source labelTok.start.offset labelTok.endPos.offset
          match assocGet labels labelName with
          | none => .error ("Unknown label: " ++ labelName)
          | some labelAddress =>
              -- ToInt32 truncates the quotient toward zero
              let offset := Int.tdiv (labelAddress - (codeSectionAddress + 4)) 4
              .ok (jsOr machineCode
                (jsOr (jsOr (jsShl rs 21) (jsShl rt 16)) (jsAnd offset 0xFFFF)))
      | _ => .ok machineCode
    else if instructionName = "lw" ∨ instructionName = "sw" ∨
            instructionName = "lb" ∨ instructionName = "lh" ∨
            instructionName = "lbu" ∨ instructionName = "lhu" ∨
            instructionName = "sb" ∨ instructionName = "sh" then
      match args with
      | [.register _ _ r0, .displacement _ _ dispTok regTok] => do
          let rt ← getRegisterNumberTok source r0
          let rs ← getRegisterNumberTok source regTok
          let offset := tokenValueNum dispTok
          .ok (jsOr machineCode
            (jsOr (jsOr (jsShl rs 21) (jsShl rt 16)) (jsAnd offset 0xFFFF)))
      | _ => .ok machineCode
    else
      match args with
      | [.register _ _ r0, .register _ _ r1, .immediate _ _ immTok] => do
          let rt ← getRegisterNumberTok source r0
          let rs ← getRegisterNumberTok source r1
          let imm := tokenValueNum immTok
          .ok (jsOr machineCode
            (jsOr (jsOr (jsShl rs 21) (jsShl rt 16)) (jsAnd imm 0xFFFF)))
      | _ => .ok machineCode
  else if instruction.type = some .J then
    let machineCode := jsShl (instruction.opcode.getD 0) 26
    match args with
    | [.labelArg _ _ labelTok] => do
        let labelName := sliceStr source labelTok.start.offset labelTok.endPos.offset
        match assocGet labels labelName with
        | none => .error ("Unknown label: " ++ labelName)
        | some labelAddress =>
            let addressField := jsShr (jsAnd labelAddress 0x0FFFFFFF) 2
            .ok (jsOr machineCode (jsAnd addressField 0x03FFFFFF))
    | _ => .ok machineCode
  else .ok 0

/-- The code generator's `handlePseudoInstruction`.  Its local `address`
advances for the two-word `li` expansion, but the caller's running code
address is not advanced afterwards (see `generateLoop`). -/
def handlePseudoInstruction (source : List Char) (code : Code) (address : Int)
    (instructionName : String) (args : List InstrArg)
    (labels : List (String × Int)) : Except String Code :=
  if instructionName = "move" then
    match args with
    | [.register _ _ r0, .register _ _ r1] => do
        let rd ← getRegisterNumberTok source r0
        let rs ← getRegisterNumberTok source r1
        let machineCode :=
          jsOr (jsOr (jsOr (jsShl 0x00 26) (jsShl rs 21)) (jsShl 0 16))
            (jsOr (jsShl rd 11) 0x21)
        code.storeWord address machineCode
    | _ => .ok code
  else if instructionName = "li" then
    match args with
    | [.register _ _ r0, .immediate _ _ immTok] => do
        let rt ← getRegisterNumberTok source r0
        let imm := tokenValueNum immTok
        let upper := jsAnd (jsShr imm 16) 0xFFFF
        let lower := jsAnd imm 0xFFFF
        if upper ≠ 0 then do
          let luiCode := jsOr (jsOr (jsShl 0x0F 26) (jsShl rt 16)) upper
          let code ← code.storeWord address luiCode
          let address := address + 4
          let oriCode := jsOr (jsOr (jsOr (jsShl 0x0D 26) (jsShl rt 21)) (jsShl rt 16)) lower
          code.storeWord address oriCode
        else do
          let oriCode := jsOr (jsOr (jsOr (jsShl 0x0D 26) (jsShl rt 21)) (jsShl rt 16)) lower
          code.storeWord address oriCode
    | _ => .ok code
  else if instructionName = "nop" then
    code.storeWord address 0x00000000
  else .error ("Unimplemented pseudo-instruction: " ++ instructionName)

/-- Pass 2 of `generate`: walk the nodes with fresh running addresses and
emit.  For a pseudo-instruction the running code address is NOT advanced
(the `codeSectionAddress += 4` of the source sits inside
`if (!instruction.pseudo)`), reproducing the source exactly. -/
def generateLoop (source : List Char) (labels : List (String × Int)) :
    List PNode → Int → Int → SectionType → Code → Except String Code
  | [], _, _, _, code => .ok code
  | node :: rest, dataA, codeA, sec, code =>
      match node with
      | .label .. => generateLoop source labels rest dataA codeA sec code
      | .directive _ _ op args =>
          let opName := sliceStr source op.start.offset op.endPos.offset
          if opName = ".data" then generateLoop source labels rest dataA codeA .DATA code
          else if opName = ".text" ∨ opName = ".code" then
            generateLoop source labels rest dataA codeA .CODE code
          else if opName = ".section" then .error "Unsupported directive: .section"
          else if opName = ".align" then
            match args with
            | [] => generateLoop source labels rest dataA codeA sec code
            | a0 :: _ =>
                match a0.tokens.head? with
                | none => .error "TypeError: reading a property of undefined"
                | some t0 =>
                    let alignValue := tokenValueNum t0
                    let alignment := jsShl 1 alignValue
                    if sec = .DATA then
                      generateLoop source labels rest (jsAlignCeil dataA alignment) codeA sec code
                    else
                      generateLoop source labels rest dataA (jsAlignCeil codeA alignment) sec code
          else if opName = ".ascii" then do
            let p ← emitAscii args code dataA false
            generateLoop source labels rest p.2 codeA sec p.1
          else if opName = ".asciiz" then do
            let p ← emitAscii args code dataA true
            generateLoop source labels rest p.2 codeA sec p.1
          else if opName = ".byte" then do
            let p ← emitBytes args code dataA
            generateLoop source labels rest p.2 codeA sec p.1
          else if opName = ".half" then do
            let p ← emitHalves args code dataA
            generateLoop source labels rest p.2 codeA sec p.1
          else if opName = ".word" then do
            let p ← emitWords args code dataA
            generateLoop source labels rest p.2 codeA sec p.1
          else if opName = ".float" then do
            let p ← emitFloats args code dataA
            generateLoop source labels rest p.2 codeA sec p.1
          else if opName = ".double" then do
            let p ← emitDoubles args code dataA
            generateLoop source labels rest p.2 codeA sec p.1
          else generateLoop source labels rest dataA codeA sec code
      | .instruction _ _ op args =>
          let instructionName := sliceStr source op.start.offset op.endPos.offset
          match assocGet ops instructionName with
          | none => .error ("Unknown instruction: " ++ instructionName)
          | some instruction =>
              if instruction.pseudo then do
                let code ← handlePseudoInstruction source code codeA instructionName args labels
                generateLoop source labels rest dataA codeA sec code
              else do
                let machineCode ←
                  encodeInstruction source labels instructionName instruction args codeA
                let code ← code.storeWord codeA machineCode
                generateLoop source labels rest dataA (codeA + 4) sec code

/-- The `generate` entry point of `code-gen.ts`: two passes over the
nodes, producing the memory image (or a fatal failure). -/
def generate (source : List Char) (tokens : List Token) (nodes : List PNode) :
    Except String Code := do
  let labels ← mapLabelLoop source nodes DATA_START TEXT_START .CODE []
  generateLoop source labels nodes DATA_START TEXT_START .CODE ⟨[]⟩

/-! ## Simulator (`simulator.ts`) -/

/-- CPU state of `MipsSimulator`: the 32-entry signed 32-bit register
file, program counter, HI/LO, the memory image and the running flag. -/
structure SimState where
  registers : List Int
  pc : Int
  hi : Int
  lo : Int
  memory : Code
  running : Bool
deriving DecidableEq, Repr

/-- Register read `this.registers[i]`. -/
def getReg (s : SimState) (i : Nat) : Int := s.registers.getD i 0

/-- Register write `this.registers[i] = v`: an `Int32Array` store applies
ToInt32 to the value. -/
def SimState.setReg (s : SimState) (i : Nat) (v : Int) : SimState :=
  { s with registers := s.registers.set i (toInt32 v) }

/-- Field `opcode = (instruction >>> 26) & 0x3F` (a 6-bit value). -/
def opcodeOf (instruction : Int) : Nat := (u32n instruction >>> 26) &&& 0x3F

/-- Field `rs = (instruction >>> 21) & 0x1F`. -/
def rsOf (instruction : Int) : Nat := (u32n instruction >>> 21) &&& 0x1F

/-- Field `rt = (instruction >>> 16) & 0x1F`. -/
def rtOf (instruction : Int) : Nat := (u32n instruction >>> 16) &&& 0x1F

/-- Field `rd = (instruction >>> 11) & 0x1F`. -/
def rdOf (instruction : Int) : Nat := (u32n instruction >>> 11) &&& 0x1F

/-- Field `shamt = (instruction >>> 6) & 0x1F`. -/
def shamtOf (instruction : Int) : Nat := (u32n instruction >>> 6) &&& 0x1F

/-- Field `funct = instruction & 0x3F`. -/
def functOf (instruction : Int) : Nat := u32n instruction &&& 0x3F

/-- Field `immediate = instruction & 0xFFFF` (zero-extended). -/
def immediateOf (instruction : Int) : Nat := u32n instruction &&& 0xFFFF

/-- Sign-extended immediate:
`(immediate & 0x8000) ? (immediate | 0xFFFF0000) : immediate`. -/
def signExtImmOf (instruction : Int) : Int :=
  if immediateOf instruction &&& 0x8000 ≠ 0 then
    jsOr (Int.ofNat (immediateOf instruction)) 0xFFFF0000
  else Int.ofNat (immediateOf instruction)

/-- Field `address = instruction & 0x3FFFFFF` (jump target). -/
def addressOf (instruction : Int) : Nat := u32n instruction &&& 0x3FFFFFF

/-- The simulator's `handleSyscall`, dispatching on register 2.  Console
output (cases 1-4, 11) and the `print_string` memory scan have no effect
on the CPU state and are omitted; the read syscalls return their
deterministic defaults. -/
def handleSyscall (s : SimState) : Except String SimState :=
  let syscallNum := getReg s 2
  if syscallNum = 1 then .ok s
  else if syscallNum = 2 then .ok s
  else if syscallNum = 3 then .ok s
  else if syscallNum = 4 then .ok s
  else if syscallNum = 5 then .ok (s.setReg 2 0)
  else if syscallNum = 8 then .ok s
  else if syscallNum = 9 then .ok s
  else if syscallNum = 10 then .ok { s with running := false }
  else if syscallNum = 11 then .ok s
  else if syscallNum = 12 then .ok (s.setReg 2 0)
  else if syscallNum = 13 ∨ syscallNum = 14 ∨ syscallNum = 15 ∨ syscallNum = 16 then
    .ok (s.setReg 2 (-1))
  else if syscallNum = 17 then
    .ok { s.setReg 2 (getReg s 4) with running := false }
  else .error ("Unsupported syscall: " ++ toString syscallNum)

/-- The simulator's `decodeAndExecute`: one decoded step.  Branch/jump
cases return with the redirected `pc`; every other case falls through to
`pc = nextPC`.  `mult`/`div` reproduce the BigInt/`Math.trunc` semantics
of the source exactly (both are exact over these ranges). -/
def decodeAndExecute (s : SimState) (instruction : Int) : Except String SimState :=
  let opcode := opcodeOf instruction
  let rs := rsOf instruction
  let rt := rtOf instruction
  let rd := rdOf instruction
  let shamt := shamtOf instruction
  let funct := functOf instruction
  let immediate := immediateOf instruction
  let signExtImm := signExtImmOf instruction
  let address := addressOf instruction
  let nextPC := s.pc + 4
  if opcode = 0 then
    if funct = 0x20 then
      .ok { s.setReg rd (getReg s rs + getReg s rt) with pc := nextPC }
    else if funct = 0x21 then
      .ok { s.setReg rd (jsShrU (getReg s rs + getReg s rt) 0) with pc := nextPC }
    else if funct = 0x22 then
      .ok { s.setReg rd (getReg s rs - getReg s rt) with pc := nextPC }
    else if funct = 0x23 then
      .ok { s.setReg rd (jsShrU (getReg s rs - getReg s rt) 0) with pc := nextPC }
    else if funct = 0x24 then
      .ok { s.setReg rd (jsAnd (getReg s rs) (getReg s rt)) with pc := nextPC }
    else if funct = 0x25 then
      .ok { s.setReg rd (jsOr (getReg s rs) (getReg s rt)) with pc := nextPC }
    else if funct = 0x26 then
      .ok { s.setReg rd (jsXor (getReg s rs) (getReg s rt)) with pc := nextPC }
    else if funct = 0x27 then
      .ok { s.setReg rd (jsNot (jsOr (getReg s rs) (getReg s rt))) with pc := nextPC }
    else if funct = 0x00 then
      .ok { s.setReg rd (jsShl (getReg s rt) (Int.ofNat shamt)) with pc := nextPC }
    else if funct = 0x02 then
      .ok { s.setReg rd (jsShrU (getReg s rt) (Int.ofNat shamt)) with pc := nextPC }
    else if funct = 0x03 then
      .ok { s.setReg rd (jsShr (getReg s rt) (Int.ofNat shamt)) with pc := nextPC }
    else if funct = 0x04 then
      .ok { s.setReg rd (jsShl (getReg s rt) (jsAnd (getReg s rs) 0x1F)) with pc := nextPC }
    else if funct = 0x06 then
      .ok { s.setReg rd (jsShrU (getReg s rt) (jsAnd (getReg s rs) 0x1F)) with pc := nextPC }
    else if funct = 0x07 then
      .ok { s.setReg rd (jsShr (getReg s rt) (jsAnd (getReg s rs) 0x1F)) with pc := nextPC }
    else if funct = 0x08 then
      .ok { s with pc := getReg s rs }
    else if funct = 0x09 then
      -- `registers[rd] = nextPC` happens before `pc = registers[rs]`, so a
      -- `jalr` with rd = rs jumps to the freshly written link address.
      let s1 := s.setReg rd nextPC
      .ok { s1 with pc := getReg s1 rs }
    else if funct = 0x2A then
      .ok { s.setReg rd (if getReg s rs < getReg s rt then 1 else 0) with pc := nextPC }
    else if funct = 0x2B then
      .ok { s.setReg rd (if jsShrU (getReg s rs) 0 < jsShrU (getReg s rt) 0 then 1 else 0)
            with pc := nextPC }
    else if funct = 0x10 then
      .ok { s.setReg rd s.hi with pc := nextPC }
    else if funct = 0x11 then
      .ok { s with hi := getReg s rs, pc := nextPC }
    else if funct = 0x12 then
      .ok { s.setReg rd s.lo with pc := nextPC }
    else if funct = 0x13 then
      .ok { s with lo := getReg s rs, pc := nextPC }
    else if funct = 0x18 then
      let product := getReg s rs * getReg s rt
      .ok { s with lo := toUint32 product,
                   hi := toUint32 (Int.fdiv product 4294967296), pc := nextPC }
    else if funct = 0x19 then
      let product := jsShrU (getReg s rs) 0 * jsShrU (getReg s rt) 0
      .ok { s with lo := toUint32 product,
                   hi := toUint32 (Int.fdiv product 4294967296), pc := nextPC }
    else if funct = 0x1A then
      if getReg s rt ≠ 0 then
        .ok { s with lo := Int.tdiv (getReg s rs) (getReg s rt),
                     hi := Int.tmod (getReg s rs) (getReg s rt), pc := nextPC }
      else .ok { s with pc := nextPC }
    else if funct = 0x1B then
      if getReg s rt ≠ 0 then
        .ok { s with lo := Int.tdiv (jsShrU (getReg s rs) 0) (jsShrU (getReg s rt) 0),
                     hi := Int.tmod (jsShrU (getReg s rs) 0) (jsShrU (getReg s rt) 0),
                     pc := nextPC }
      else .ok { s with pc := nextPC }
    else if funct = 0x0C then do
      let s' ← handleSyscall s
      .ok { s' with pc := nextPC }
    else
      .error ("Unsupported R-type instruction function: 0x" ++
        String.mk (Nat.toDigits 16 funct))
  else
    if opcode = 0x08 then
      .ok { s.setReg rt (getReg s rs + signExtImm) with pc := nextPC }
    else if opcode = 0x09 then
      .ok { s.setReg rt (jsOr (getReg s rs + signExtImm) 0) with pc := nextPC }
    else if opcode = 0x0C then
      .ok { s.setReg rt (jsAnd (getReg s rs) (Int.ofNat immediate)) with pc := nextPC }
    else if opcode = 0x0D then
      .ok { s.setReg rt (jsOr (getReg s rs) (Int.ofNat immediate)) with pc := nextPC }
    else if opcode = 0x0E then
      .ok { s.setReg rt (jsXor (getReg s rs) (Int.ofNat immediate)) with pc := nextPC }
    else if opcode = 0x0F then
      .ok { s.setReg rt (jsShl (Int.ofNat immediate) 16) with pc := nextPC }
    else if opcode = 0x0A then
      .ok { s.setReg rt (if getReg s rs < signExtImm then 1 else 0) with pc := nextPC }
    else if opcode = 0x0B then
      .ok { s.setReg rt (if jsShrU (getReg s rs) 0 < jsShrU signExtImm 0 then 1 else 0)
            with pc := nextPC }
    else if opcode = 0x23 then do
      let v ← s.memory.readWord (getReg s rs + signExtImm)
      .ok { s.setReg rt v with pc := nextPC }
    else if opcode = 0x2B then do
      let m ← s.memory.storeWord (getReg s rs + signExtImm) (getReg s rt)
      .ok { s with memory := m, pc := nextPC }
    else if opcode = 0x20 then
      let lbVal := s.memory.readByte (getReg s rs + signExtImm)
      let v := if jsAnd lbVal 0x80 ≠ 0 then jsOr lbVal 0xFFFFFF00 else lbVal
      .ok { s.setReg rt v with pc := nextPC }
    else if opcode = 0x24 then
      .ok { s.setReg rt (jsAnd (s.memory.readByte (getReg s rs + signExtImm)) 0xFF)
            with pc := nextPC }
    else if opcode = 0x21 then do
      let lhVal ← s.memory.readHalfWord (getReg s rs + signExtImm)
      let v := if jsAnd lhVal 0x8000 ≠ 0 then jsOr lhVal 0xFFFF0000 else lhVal
      .ok { s.setReg rt v with pc := nextPC }
    else if opcode = 0x25 then do
      let lhuVal ← s.memory.readHalfWord (getReg s rs + signExtImm)
      .ok { s.setReg rt (jsAnd lhuVal 0xFFFF) with pc := nextPC }
    else if opcode = 0x28 then
      .ok { s with
              memory := s.memory.storeByte (getReg s rs + signExtImm)
                (jsAnd (getReg s rt) 0xFF),
              pc := nextPC }
    else if opcode = 0x29 then do
      let m ← s.memory.storeHalfWord (getReg s rs + signExtImm) (jsAnd (getReg s rt) 0xFFFF)
      .ok { s with memory := m, pc := nextPC }
    else if opcode = 0x04 then
      if getReg s rs = getReg s rt then .ok { s with pc := nextPC + jsShl signExtImm 2 }
      else .ok { s with pc := nextPC }
    else if opcode = 0x05 then
      if getReg s rs ≠ getReg s rt then .ok { s with pc := nextPC + jsShl signExtImm 2 }
      else .ok { s with pc := nextPC }
    else if opcode = 0x06 then
      if getReg s rs ≤ 0 then .ok { s with pc := nextPC + jsShl signExtImm 2 }
      else .ok { s with pc := nextPC }
    else if opcode = 0x07 then
      if getReg s rs > 0 then .ok { s with pc := nextPC + jsShl signExtImm 2 }
      else .ok { s with pc := nextPC }
    else if opcode = 0x01 then
      if rt = 0x00 then
        if getReg s rs < 0 then .ok { s with pc := nextPC + jsShl signExtImm 2 }
        else .ok { s with pc := nextPC }
      else if rt = 0x01 then
        if getReg s rs ≥ 0 then .ok { s with pc := nextPC + jsShl signExtImm 2 }
        else .ok { s with pc := nextPC }
      else if rt = 0x10 then
        if getReg s rs < 0 then
          .ok { s.setReg 31 nextPC with pc := nextPC + jsShl signExtImm 2 }
        else .ok { s with pc := nextPC }
      else if rt = 0x11 then
        if getReg s rs ≥ 0 then
          .ok { s.setReg 31 nextPC with pc := nextPC + jsShl signExtImm 2 }
        else .ok { s with pc := nextPC }
      else .ok { s with pc := nextPC }
    else if opcode = 0x02 then
      .ok { s with pc := jsOr (jsAnd nextPC 0xF0000000) (jsShl (Int.ofNat address) 2) }
    else if opcode = 0x03 then
      .ok { s.setReg 31 nextPC with
              pc := jsOr (jsAnd nextPC 0xF0000000) (jsShl (Int.ofNat address) 2) }
    else
      .error ("Unsupported opcode: 0x" ++ String.mk (Nat.toDigits 16 opcode))

/-- One fetch-decode-execute step of the `run` loop body. -/
def stepFetchExecute (s : SimState) : Except String SimState := do
  let instruction ← s.memory.readWord s.pc
  decodeAndExecute s instruction

/-- The `this.registers[0] = 0` write at the end of every step. -/
def zeroRegZero (s : SimState) : SimState :=
  { s with registers := s.registers.set 0 (toInt32 0) }

/-- Result record of `run()`. -/
structure RunResult where
  exitCode : Int
  instructionsExecuted : Nat
deriving DecidableEq, Repr

/-- Post-loop returns of `run()`: the budget check, then the normal
return with the exit code taken from register 2. -/
def runExit (maxInstructions : Nat) (s : SimState) (count : Nat) :
    RunResult × SimState :=
  if count ≥ maxInstructions then (⟨-2, count⟩, s)
  else (⟨getReg s 2, count⟩, s)

/-- The `while (this.running && this.instructionsExecuted < maxInstructions)`
loop of `run()`, by fuel.  The loop body runs at most `maxInstructions`
times, so `maxInstructions + 1` fuel always suffices; the fuel-exhausted
branch coincides with the loop exit it would take.  An execution error
returns `(-1, count)` with the state unchanged by the failed step (no
instruction mutates a register before its first possible throw). -/
def runAux (maxInstructions : Nat) : Nat → SimState → Nat → RunResult × SimState
  | 0, s, count => runExit maxInstructions s count
  | fuel + 1, s, count =>
      if s.running ∧ count < maxInstructions then
        match stepFetchExecute s with
        | .error _ => (⟨-1, count⟩, s)
        | .ok s' => runAux maxInstructions fuel (zeroRegZero s') (count + 1)
      else runExit maxInstructions s count

/-- The `run()` method: set the running flag, reset the counter, loop. -/
def MipsSimulator.run (s : SimState) (maxInstructions : Nat) : RunResult × SimState :=
  runAux maxInstructions (maxInstructions + 1) { s with running := true } 0

/-- The `MipsSimulator` constructor: zeroed registers, `$sp` initialised
to the stack base, `pc` at the code base. -/
def mkSimulator (code : Code) : SimState :=
  { registers := ((List.replicate 32 0).set 29 (toInt32 STACK_START)).set 0 (toInt32 0),
    pc := TEXT_START, hi := 0, lo := 0, memory := code, running := false }

/-- The `execute` entry point of `simulator.ts` (default budget 100000). -/
def execute (code : Code) : RunResult :=
  (MipsSimulator.run (mkSimulator code) 100000).1

/-! ## Derived definitions used by the verification -/

/-- Diagnostics of the lexer stage alone. -/
def lexErrors (s : String) : List Err := (lex s).2

/-- Diagnostics of the parser stage; `none` when the parser throws. -/
def parseErrors (s : String) : Option (List Err) :=
  (parseTokens s.data (lex s).1).map Prod.snd

/-- Lex, parse, then validate; `none` when a stage throws a TypeError. -/
def pipelineValidate (s : String) : Option (List Err) := do
  let toks := (lex s).1
  let (nodes, _) ← parseTokens s.data toks
  validateM s.data toks nodes

/-- Lex, parse, then generate the memory image from the parsed nodes. -/
def pipelineGenerate (s : String) : Option (Except String Code) :=
  (parseTokens s.data (lex s).1).map (fun p => generate s.data (lex s).1 p.1)

/-- Memory image of `ori $v0, $zero, 10` followed by `syscall`, placed at
the code base: a program that issues syscall 10. -/
def exitTenCode : Code := ⟨[(4194304, 0x3402000A), (4194308, 0x0000000C)]⟩

/-- A CPU state that has already cleared `running`, with register 2
holding 10 (as it does right after an exit syscall). -/
def exitedState : SimState :=
  { registers := (List.replicate 32 0).set 2 10,
    pc := 4194312, hi := 0, lo := 0, memory := exitTenCode, running := false }

/-- A freshly constructed simulator state over an empty image. -/
def simState0 : SimState := mkSimulator ⟨[]⟩

/-- `simState0` with register 9 negative, so a `bltzal` on `$t1` is taken. -/
def negRegState : SimState :=
  { simState0 with registers := simState0.registers.set 9 (-5) }

/-- The source `".byte 300"` as characters. -/
def byteSrc : List Char := (".byte 300").data

/-- The directive token spanning `".byte"` in `byteSrc`. -/
def byteOpTok : Token := ⟨.DIRECTIVE, ⟨0, 0⟩, ⟨5, 0⟩, .none⟩

/-- The number token spanning `"300"` in `byteSrc`. -/
def byteArgTok : Token := ⟨.NUMBER, ⟨6, 0⟩, ⟨9, 0⟩, .num 300⟩

/-- The argument node holding `byteArgTok`. -/
def byteArg0 : DirArg := ⟨⟨6, 0⟩, ⟨9, 0⟩, [byteArgTok]⟩

/-- Bit mask cleared over byte `p` (the `u32n` value of the source's
`~(0xFF << (bytePosition * 8))`). -/
def maskN (p : Nat) : Nat := 4294967295 - (255 <<< (p * 8))

/-- Word with byte `p` replaced by the low byte of `b` (the `u32n` value
of the word written by `storeByte`). -/
def setByteN (u p b : Nat) : Nat := (u &&& maskN p) ||| ((b &&& 255) <<< (p * 8))

/-- Byte `p` of a word (the value `readByte` extracts). -/
def byteN (u p : Nat) : Nat := (u >>> (p * 8)) &&& 255

/-- Token spans chain contiguously from `a` to `b`: each token starts
where its predecessor ended, with non-decreasing offsets. -/
def offsetsChain : Nat → List Token → Nat → Prop
  | a, [], b => a = b
  | a, t :: ts, b => t.start.offset = a ∧ a ≤ t.endPos.offset ∧ offsetsChain t.endPos.offset ts b

/-- The source slice underlying a token's span. -/
def tokSlice (source : List Char) (t : Token) : List Char :=
  (source.drop t.start.offset).take (t.endPos.offset - t.start.offset)

/-! ## Word-level arithmetic facts for the memory image -/

theorem u32n_lt (x : Int) : u32n x < 4294967296 := by
  unfold u32n
  have h1 : 0 ≤ x % 4294967296 := Int.emod_nonneg x (by norm_num)
  have h2 : x % 4294967296 < 4294967296 := Int.emod_lt_of_pos x (by norm_num)
  omega

theorem u32n_natCast (n : Nat) : u32n (Int.ofNat n) = n % 4294967296 := by
  unfold u32n
  norm_cast

theorem u32n_toInt32 (x : Int) : u32n (toInt32 x) = u32n x := by
  unfold toInt32 u32n
  split <;> omega

theorem toInt32_cases (x : Int) :
    toInt32 x = (u32n x : Int) ∨ toInt32 x = (u32n x : Int) - 4294967296 := by
  unfold toInt32 u32n
  split
  · left; omega
  · right; omega

theorem toInt32_ofNat_small (n : Nat) (h : n < 2147483648) :
    toInt32 (n : Int) = (n : Int) := by
  unfold toInt32
  split <;> omega

theorem jsAnd_u32n (a b : Int) : u32n (jsAnd a b) = u32n a &&& u32n b := by
  unfold jsAnd
  rw [u32n_toInt32, u32n_natCast]
  have hb : u32n b < 2 ^ 32 := by have := u32n_lt b; norm_num; exact this
  have h := Nat.and_lt_two_pow (u32n a) hb
  have h2 : u32n a &&& u32n b < 4294967296 := by norm_num at h; exact h
  omega

theorem jsOr_u32n (a b : Int) : u32n (jsOr a b) = u32n a ||| u32n b := by
  unfold jsOr
  rw [u32n_toInt32, u32n_natCast]
  have ha : u32n a < 2 ^ 32 := by have := u32n_lt a; norm_num; exact this
  have hb : u32n b < 2 ^ 32 := by have := u32n_lt b; norm_num; exact this
  have h := Nat.or_lt_two_pow ha hb
  have h2 : u32n a ||| u32n b < 4294967296 := by norm_num at h; exact h
  omega

theorem jsShl_u32n (a b : Int) :
    u32n (jsShl a b) = (u32n a <<< shiftCount b) % 4294967296 := by
  unfold jsShl
  rw [u32n_toInt32, u32n_natCast, Nat.mod_mod_of_dvd _ dvd_rfl]

theorem jsNot_u32n (a : Int) : u32n (jsNot a) = 4294967295 - u32n a := by
  unfold jsNot toInt32 u32n
  split <;> omega


theorem testBit_255 (j : Nat) : (255 : Nat).testBit j = decide (j < 8) := by
  have h := Nat.testBit_two_pow_sub_one 8 j
  norm_num at h
  exact h

theorem shl255_lt (p : Nat) (hp : p < 4) : 255 <<< (p * 8) < 2 ^ 32 := by
  interval_cases p <;> decide

theorem testBit_maskN (p : Nat) (hp : p < 4) (i : Nat) :
    (maskN p).testBit i = (decide (i < 32) && !((255 <<< (p * 8)).testBit i)) := by
  have h : maskN p = 2 ^ 32 - ((255 <<< (p * 8)) + 1) := by
    unfold maskN
    interval_cases p <;> decide
  rw [h, Nat.testBit_two_pow_sub_succ (shl255_lt p hp)]

theorem byteN_setByteN_same (u p b : Nat) (hp : p < 4) :
    byteN (setByteN u p b) p = b &&& 255 := by
  apply Nat.eq_of_testBit_eq
  intro i
  simp only [byteN, setByteN, Nat.testBit_land, Nat.testBit_shiftRight, Nat.testBit_lor,
    Nat.testBit_shiftLeft, testBit_maskN p hp, testBit_255]
  by_cases hi : i < 8
  · have h1 : p * 8 ≤ p * 8 + i := by omega
    have h2 : p * 8 + i - p * 8 = i := by omega
    simp [h1, h2, hi]
  · simp [hi]

theorem byteN_setByteN_other (u p q b : Nat) (hp : p < 4) (hq : q < 4) (hne : q ≠ p) :
    byteN (setByteN u p b) q = byteN u q := by
  apply Nat.eq_of_testBit_eq
  intro i
  simp only [byteN, setByteN, Nat.testBit_land, Nat.testBit_shiftRight, Nat.testBit_lor,
    Nat.testBit_shiftLeft, testBit_maskN p hp, testBit_255]
  by_cases hi : i < 8
  · have h32 : q * 8 + i < 32 := by omega
    have hout : ¬ (p * 8 ≤ q * 8 + i ∧ q * 8 + i - p * 8 < 8) := by omega
    by_cases hge : p * 8 ≤ q * 8 + i
    · have h8 : ¬ (q * 8 + i - p * 8 < 8) := fun hcon => hout ⟨hge, hcon⟩
      simp [hge, h8, h32, hi]
    · simp [hge, h32, hi]
  · simp [hi]

theorem shiftCount_bytePos (a : Nat) :
    shiftCount (Int.tmod (Int.ofNat a) 4 * 8) = a % 4 * 8 := by
  have h : Int.tmod (Int.ofNat a) 4 * 8 = Int.ofNat (a % 4 * 8) := by
    rw [show Int.tmod (Int.ofNat a) 4 = Int.ofNat (a % 4) from rfl,
      Int.ofNat_eq_natCast, Int.ofNat_eq_natCast]
    push_cast
    ring
  rw [h]
  unfold shiftCount
  rw [u32n_natCast]
  omega

theorem storeByte_word_u32 (w b : Int) (k : Int) (p : Nat) (hp : p < 4)
    (hk : shiftCount k = p * 8) :
    u32n (jsOr (jsAnd w (jsNot (jsShl 255 k))) (jsShl (jsAnd b 255) k)) =
      setByteN (u32n w) p (u32n b) := by
  have h255 : u32n (255 : Int) = 255 := rfl
  rw [jsOr_u32n, jsAnd_u32n, jsNot_u32n, jsShl_u32n, jsShl_u32n, jsAnd_u32n, hk, h255]
  have hb : u32n b &&& 255 ≤ 255 := Nat.and_le_right
  have h1 : (255 <<< (p * 8)) % 4294967296 = 255 <<< (p * 8) :=
    Nat.mod_eq_of_lt (by have := shl255_lt p hp; norm_num at this; exact this)
  have h2 : ((u32n b &&& 255) <<< (p * 8)) % 4294967296 = (u32n b &&& 255) <<< (p * 8) := by
    apply Nat.mod_eq_of_lt
    calc (u32n b &&& 255) <<< (p * 8) ≤ 255 <<< (p * 8) := by
          rw [Nat.shiftLeft_eq, Nat.shiftLeft_eq]
          exact Nat.mul_le_mul_right _ hb
      _ < 4294967296 := by have := shl255_lt p hp; norm_num at this; exact this
  rw [h1, h2]
  rfl

theorem jsShr_byte_u32 (w : Int) (p : Nat) (hp : p < 4) (k : Int)
    (hk : shiftCount k = p * 8) :
    jsAnd (jsShr w k) 255 = Int.ofNat (byteN (u32n w) p) := by
  have hand : ∀ x : Int, jsAnd x 255 = Int.ofNat (u32n x % 256) := by
    intro x
    unfold jsAnd
    rw [show u32n (255 : Int) = 255 from rfl]
    have hmod : u32n x &&& 255 = u32n x % 256 := by
      have h := Nat.and_pow_two_sub_one_eq_mod (u32n x) 8
      norm_num at h
      exact h
    rw [hmod]
    have := toInt32_ofNat_small (u32n x % 256) (by omega)
    simpa using this
  rw [hand]
  congr 1
  have hbyte : byteN (u32n w) p = (u32n w / 2 ^ (p * 8)) % 256 := by
    unfold byteN
    rw [Nat.shiftRight_eq_div_pow]
    have h := Nat.and_pow_two_sub_one_eq_mod (u32n w / 2 ^ (p * 8)) 8
    norm_num at h
    exact h
  rw [hbyte]
  unfold jsShr
  rw [hk]
  have hn := u32n_lt w
  rcases toInt32_cases w with h | h <;> rw [h] <;>
    (interval_cases p <;>
      (rw [Int.fdiv_eq_ediv _ (by norm_num)] <;> unfold u32n <;> omega))

theorem and255_mod (x : Nat) : x &&& 255 = x % 256 := by
  have h := Nat.and_pow_two_sub_one_eq_mod x 8
  norm_num at h
  exact h

theorem align_natCast (a : Nat) :
    alignAddressToWordBoundary (Int.ofNat a) = Int.ofNat (a / 4 * 4) := by
  unfold alignAddressToWordBoundary
  rw [Int.fdiv_eq_ediv _ (by norm_num)]
  simp only [Int.ofNat_eq_natCast]
  omega

theorem storeByte_readByte_same (c : Code) (a : Nat) (b : Int) :
    (c.storeByte (Int.ofNat a) b).readByte (Int.ofNat a) = b % 256 := by
  have hp : a % 4 < 4 := Nat.mod_lt _ (by norm_num)
  simp only [Code.storeByte, Code.readByte, Code.getWordD, align_natCast]
  rw [assocGet_assocSet_self, Option.getD_some]
  rw [jsShr_byte_u32 _ (a % 4) hp _ (shiftCount_bytePos a)]
  rw [storeByte_word_u32 _ b _ (a % 4) hp (shiftCount_bytePos a)]
  rw [byteN_setByteN_same _ _ _ hp, and255_mod]
  have hb := u32n_lt b
  simp only [Int.ofNat_eq_natCast]
  unfold u32n
  omega

theorem storeByte_readByte_other (c : Code) (a a' : Nat) (b : Int) (h : a' ≠ a) :
    (c.storeByte (Int.ofNat a) b).readByte (Int.ofNat a') = c.readByte (Int.ofNat a') := by
  have hp : a % 4 < 4 := Nat.mod_lt _ (by norm_num)
  have hp' : a' % 4 < 4 := Nat.mod_lt _ (by norm_num)
  by_cases hw : a' / 4 = a / 4
  · have hm : a' % 4 ≠ a % 4 := by omega
    simp only [Code.storeByte, Code.readByte, Code.getWordD, align_natCast, hw]
    rw [assocGet_assocSet_self, Option.getD_some]
    rw [jsShr_byte_u32 _ (a' % 4) hp' _ (shiftCount_bytePos a')]
    rw [jsShr_byte_u32 _ (a' % 4) hp' _ (shiftCount_bytePos a')]
    rw [storeByte_word_u32 _ b _ (a % 4) hp (shiftCount_bytePos a)]
    rw [byteN_setByteN_other _ _ _ _ hp hp' hm]
  · have hne : Int.ofNat (a' / 4 * 4) ≠ Int.ofNat (a / 4 * 4) := by
      simp only [Int.ofNat_eq_natCast]
      omega
    simp only [Code.storeByte, Code.readByte, Code.getWordD, align_natCast]
    rw [assocGet_assocSet_ne _ _ _ _ hne]

/-! ## Lexer span facts -/

theorem parseStringAux_spec (delim : Char) (l : List Char) :
    (parseStringAux delim l).2.1 ++ (parseStringAux delim l).2.2 = l := by
  have key : ∀ (n : Nat) (l : List Char), l.length ≤ n →
      (parseStringAux delim l).2.1 ++ (parseStringAux delim l).2.2 = l := by
    intro n
    induction n with
    | zero =>
        intro l hl
        match l with
        | [] => simp [parseStringAux]
        | _ :: _ => simp at hl
    | succ n ih =>
        intro l hl
        match l with
        | [] => simp [parseStringAux]
        | c :: cs =>
            rw [parseStringAux.eq_def]
            by_cases h1 : c = delim
            · simp [h1]
            · simp only [if_neg h1]
              by_cases h2 : c = '\\'
              · simp only [if_pos h2]
                match cs with
                | [] => simp
                | e :: cs' =>
                    have hr := ih cs' (by simp at hl ⊢; omega)
                    simp [hr]
              · simp only [if_neg h2]
                have hr := ih cs (by simp at hl ⊢; omega)
                simp [hr]
  exact key l.length l (le_refl _)

theorem scanOne_spec (c : Char) (rs : List Char) :
    (scanOne c rs).consumed ++ (scanOne c rs).rest = c :: rs ∧
    (scanOne c rs).consumed ≠ [] := by
  unfold scanOne
  by_cases h1 : c = ' '
  · simp [h1]
  · simp only [if_neg h1]
    by_cases h2 : c = '\r'
    · simp only [if_pos h2]
      split
      · exact ⟨rfl, by simp⟩
      · exact ⟨rfl, by simp⟩
    · simp only [if_neg h2]
      by_cases h3 : c = '\n'
      · simp [h3]
      · simp only [if_neg h3]
        by_cases h4 : c = '\t'
        · simp [h4]
        · simp only [if_neg h4]
          by_cases h5 : c = '#'
          · simp only [if_pos h5]
            exact ⟨by simp [List.takeWhile_append_dropWhile], by simp⟩
          · simp only [if_neg h5]
            by_cases h6 : c = '$'
            · simp only [if_pos h6]
              split
              · exact ⟨by simp [List.takeWhile_append_dropWhile], by simp⟩
              · exact ⟨by simp [List.takeWhile_append_dropWhile], by simp⟩
            · simp only [if_neg h6]
              by_cases h7 : c = '('
              · simp [h7]
              · simp only [if_neg h7]
                by_cases h8 : c = ')'
                · simp [h8]
                · simp only [if_neg h8]
                  by_cases h9 : c = ','
                  · simp [h9]
                  · simp only [if_neg h9]
                    by_cases h10 : c = '.'
                    · simp only [if_pos h10]
                      exact ⟨by simp [List.takeWhile_append_dropWhile], by simp⟩
                    · simp only [if_neg h10]
                      by_cases h11 : c = '"' ∨ c = '\''
                      · simp only [if_pos h11]
                        split
                        · exact ⟨by rw [List.cons_append, parseStringAux_spec], by simp⟩
                        · exact ⟨by rw [List.cons_append, parseStringAux_spec], by simp⟩
                      · simp only [if_neg h11]
                        by_cases h12 : c = '-' ∨ c = '+'
                        · simp only [if_pos h12]
                          refine ⟨?_, by simp⟩
                          simp only [List.cons_append, List.append_assoc,
                            List.takeWhile_append_dropWhile, List.cons.injEq, true_and]
                        · simp only [if_neg h12]
                          by_cases h13 : isDigitChar c
                          · simp only [if_pos h13]
                            exact ⟨by simp [List.takeWhile_append_dropWhile], by simp⟩
                          · simp only [if_neg h13]
                            by_cases h14 : isAlphaChar c
                            · simp only [if_pos h14]
                              split
                              · next rest' heq =>
                                  refine ⟨?_, by simp⟩
                                  simp only [List.cons_append, List.append_assoc,
                                    List.singleton_append, List.nil_append,
                                    List.cons.injEq, true_and]
                                  rw [← heq, List.takeWhile_append_dropWhile]
                              · next heq =>
                                  refine ⟨?_, by simp⟩
                                  simp only [List.cons_append, List.cons.injEq, true_and]
                                  exact List.takeWhile_append_dropWhile _ _
                            · simp only [if_neg h14]
                              exact ⟨rfl, by simp⟩


theorem lexLoop_chain : ∀ (fuel : Nat) (rem : List Char) (pos : Position),
    rem.length ≤ fuel →
    offsetsChain pos.offset (lexLoop fuel rem pos).1 (pos.offset + rem.length) := by
  intro fuel
  induction fuel with
  | zero =>
      intro rem pos h
      match rem with
      | [] => simp [lexLoop, offsetsChain]
      | _ :: _ => simp at h
  | succ n ih =>
      intro rem pos h
      match rem with
      | [] => simp [lexLoop, offsetsChain]
      | c :: rs =>
          obtain ⟨hsplit, hne⟩ := scanOne_spec c rs
          have hc1 : 1 ≤ (scanOne c rs).consumed.length := by
            match hcons : (scanOne c rs).consumed with
            | [] => exact absurd hcons hne
            | _ :: _ => simp
          have hlensum : (scanOne c rs).consumed.length + (scanOne c rs).rest.length
              = rs.length + 1 := by
            have hl := congrArg List.length hsplit
            simpa using hl
          have hlen : (scanOne c rs).rest.length ≤ n := by
            simp at h
            omega
          have hr := ih (scanOne c rs).rest (advancePos pos (scanOne c rs).consumed) hlen
          simp only [lexLoop, offsetsChain]
          refine ⟨trivial, ?_, ?_⟩
          · simp [advancePos]
          · have harith : (advancePos pos (scanOne c rs).consumed).offset
                + (scanOne c rs).rest.length = pos.offset + (c :: rs).length := by
              simp [advancePos]
              omega
            rw [harith] at hr
            exact hr


theorem offsetsChain_join (source : List Char) :
    ∀ (toks : List Token) (a : Nat), offsetsChain a toks source.length →
      (toks.map (tokSlice source)).flatten = source.drop a := by
  intro toks
  induction toks with
  | nil =>
      intro a ha
      simp only [offsetsChain] at ha
      simp [ha, List.drop_length]
  | cons t ts ih =>
      intro a ha
      obtain ⟨h1, h2, h3⟩ := ha
      simp only [List.map_cons, List.flatten_cons]
      rw [ih _ h3]
      have hd : source.drop t.endPos.offset = (source.drop a).drop (t.endPos.offset - a) := by
        rw [List.drop_drop]
        congr 1
        omega
      rw [tokSlice, h1, hd, List.take_append_drop]

theorem c4_lex_spans_lossless (source : List Char) :
    offsetsChain 0 (lexChars source).1 source.length ∧
    ((lexChars source).1.map (tokSlice source)).flatten = source := by
  have h : offsetsChain 0 (lexChars source).1 (0 + source.length) :=
    lexLoop_chain (source.length + 1) source ⟨0, 0⟩ (by omega)
  rw [Nat.zero_add] at h
  have hj := offsetsChain_join source (lexChars source).1 0 h
  rw [List.drop_zero] at hj
  exact ⟨h, hj⟩

/-! ## Simulator register-file lemmas -/

theorem getReg_setReg_self (s : SimState) (i : Nat) (v : Int)
    (h : i < s.registers.length) : getReg (s.setReg i v) i = toInt32 v := by
  unfold getReg SimState.setReg
  simp [List.getD_eq_getElem?_getD, List.getElem?_set_self, h]

theorem rdOf_lt32 (w : Int) : rdOf w < 32 := by
  have h : rdOf w ≤ 0x1F := Nat.and_le_right
  omega

theorem getReg_zeroRegZero (s : SimState) : getReg (zeroRegZero s) 0 = 0 := by
  unfold getReg zeroRegZero
  cases hr : s.registers with
  | nil => simp [hr]
  | cons a l => simp [hr]; norm_num [toInt32]

theorem runAux_reg0 (maxInstructions : Nat) : ∀ (fuel : Nat) (s : SimState) (count : Nat),
    getReg s 0 = 0 → getReg (runAux maxInstructions fuel s count).2 0 = 0 := by
  intro fuel
  induction fuel with
  | zero =>
      intro s count h
      unfold runAux runExit
      split <;> simpa
  | succ n ih =>
      intro s count h
      unfold runAux
      split
      · split
        · simpa
        · exact ih _ _ (getReg_zeroRegZero _)
      · unfold runExit
        split <;> simpa

/-! ## Claim theorems -/

/-- C1: Refuted as stated; the code has a bug.  On the source
`".text\nli $t0, 42\nli $s0, -1"`, `handlePseudoInstruction` advances only
its local `address` copy and `generate` never advances
`codeSectionAddress` past a pseudo-instruction, so both `li` expansions
are emitted starting at the code base.  The final image holds only the
`lui`/`ori` pair of `li $s0, -1` (0x3C10FFFF and 0x3610FFFF) in its two
word slots; the single `ori` word of `li $t0, 42` (0x3508002A, which the
claim requires to be present at a distinct address) has been overwritten
and appears nowhere in the image. -/
theorem c1_li_pseudo_overwrite :
    pipelineGenerate ".text\nli $t0, 42\nli $s0, -1" =
      some (.ok ⟨[((4194304 : Int), (0x3C10FFFF : Int)),
                  ((4194308 : Int), (0x3610FFFF : Int))]⟩) ∧
    (4194304 : Int) = TEXT_START ∧
    ∀ p ∈ [((4194304 : Int), (0x3C10FFFF : Int)),
           ((4194308 : Int), (0x3610FFFF : Int))], p.2 ≠ (0x3508002A : Int) := by
  exact ⟨rfl, rfl, by decide⟩

/-- C2: Refuted as stated.  Executing `ori $v0, $zero, 10; syscall` (a
program that issues syscall 10) halts normally, but `run()` returns
`this.registers[2]` as the exit code, so `execute` reports exitCode 10,
not the claimed 0. -/
theorem c2_counterexample :
    execute exitTenCode = ⟨10, 2⟩ ∧ (10 : Int) ≠ 0 := by
  exact ⟨rfl, by decide⟩

/-- C2 (amended): syscall 10 clears the running flag without touching
register 2, and the run loop then returns `this.registers[2]` — still
holding the value 10 — as the exit code.  The simulator halts normally,
but the exit code is 10, not 0. -/
theorem c2_amended_exit_code (s s2 : SimState) (fuel count maxInstructions : Nat)
    (h : getReg s 2 = 10) (hrun : s2.running = false) (h2 : getReg s2 2 = 10)
    (hcount : count < maxInstructions) :
    handleSyscall s = .ok { s with running := false } ∧
    runAux maxInstructions fuel s2 count = (⟨10, count⟩, s2) := by
  constructor
  · simp only [handleSyscall, h]
    norm_num
  · cases fuel with
    | zero =>
        simp only [runAux, runExit]
        rw [if_neg (by omega), h2]
    | succ n =>
        simp only [runAux, hrun]
        rw [if_neg (by simp)]
        simp only [runExit]
        rw [if_neg (by omega), h2]

theorem c2_amended_exit_code_witness :
    handleSyscall exitedState = .ok { exitedState with running := false } ∧
    runAux 1 3 exitedState 0 = (⟨10, 0⟩, exitedState) :=
  c2_amended_exit_code exitedState exitedState 3 0 1 (by decide) rfl (by decide)
    (by decide)

/-- C3: Confirmed.  On `".text\nadd $t0, $t1, $t2"` the lexer, parser and
validator each return empty diagnostics, and `generate` stores the single
instruction word 0x012A4020 at the code-segment base `TEXT_START`. -/
theorem c3_add_encoding_pipeline :
    lexErrors ".text\nadd $t0, $t1, $t2" = [] ∧
    parseErrors ".text\nadd $t0, $t1, $t2" = some [] ∧
    pipelineValidate ".text\nadd $t0, $t1, $t2" = some [] ∧
    pipelineGenerate ".text\nadd $t0, $t1, $t2" =
      some (.ok ⟨[(TEXT_START, 0x012A4020)]⟩) := by
  exact ⟨rfl, rfl, rfl, rfl⟩

/-- C5: Refuted as stated; the code has a bug.  On `".data\n.align"` the
parser succeeds (a directive node with an empty argument list), but the
validator reads `args[0].tokens[0]` of the `.align` directive
unconditionally and throws a TypeError on the empty argument list, so
`validate` does not return a `(null, diagnostics)` result. -/
theorem c5_align_validator_throws :
    (parseTokens (".data\n.align").data (lex ".data\n.align").1).isSome = true ∧
    pipelineValidate ".data\n.align" = none := by
  exact ⟨rfl, rfl⟩

/-- C7: Refuted as stated; the code has a bug.  On the one-character
source consisting of a single double quote — a string literal opened and
never closed — the unclosed-string check compares the character before
the end of input with the delimiter, and the opening quote itself
matches, so `lex` emits a STRING token carrying the decoded partial value
(the empty string) and no "Unclosed string" diagnostic, instead of the
claimed INVALID token plus diagnostic. -/
theorem c7_unclosed_string_bug :
    lexChars ['"'] =
      ([⟨.STRING, ⟨0, 0⟩, ⟨1, 0⟩, .str []⟩, ⟨.EOF, ⟨1, 0⟩, ⟨1, 0⟩, .none⟩], []) := by
  rfl

/-- C9: Confirmed.  Register 0 is forced back to 0 at the end of every
executed instruction step (`zeroRegZero` follows every successful step of
the run loop), and whenever `run()` returns on a freshly constructed
simulator, register 0 of the final register file equals 0, regardless of
what decode/execute wrote to it. -/
theorem c9_register_zero_invariant :
    (∀ s : SimState, getReg (zeroRegZero s) 0 = 0) ∧
    ∀ (code : Code) (maxInstructions : Nat),
      getReg (MipsSimulator.run (mkSimulator code) maxInstructions).2 0 = 0 := by
  refine ⟨getReg_zeroRegZero, ?_⟩
  intro code maxInstructions
  unfold MipsSimulator.run
  exact runAux_reg0 maxInstructions _ _ _ rfl

/-- C10: Confirmed.  For any memory image, non-negative addresses a and
a2 with a2 ≠ a, and any integer b, after `storeByte(a, b)` the call
`readByte(a)` returns b mod 256, and `readByte(a2)` returns exactly what
it returned before the store: storing one byte never alters any other
byte of the image. -/
theorem c10_storeByte_frame (c : Code) (a a2 : Nat) (b : Int) (h : a2 ≠ a) :
    (c.storeByte (Int.ofNat a) b).readByte (Int.ofNat a) = b % 256 ∧
    (c.storeByte (Int.ofNat a) b).readByte (Int.ofNat a2) = c.readByte (Int.ofNat a2) :=
  ⟨storeByte_readByte_same c a b, storeByte_readByte_other c a a2 b h⟩

theorem c10_storeByte_frame_witness :
    (6 : Nat) ≠ 5 ∧
    (((Code.mk []).storeByte (Int.ofNat 5) 999).readByte (Int.ofNat 5) = 999 % 256 ∧
     ((Code.mk []).storeByte (Int.ofNat 5) 999).readByte (Int.ofNat 6) =
       (Code.mk []).readByte (Int.ofNat 6)) :=
  ⟨by decide, c10_storeByte_frame ⟨[]⟩ 5 6 999 (by decide)⟩

/-- C6: Refuted as stated.  Executing `jalr $t0, $t1` (word 0x01204009,
rd = 8, rs = 9) from a fresh simulator state leaves register 31 at 0 and
writes the link address PC+4 = 0x00400004 into register 8: `jalr` links
into its `rd` register, not into register 31, so the claim fails for
`jalr`. -/
theorem c6_counterexample :
    (decodeAndExecute simState0 0x01204009).map
        (fun s => (getReg s 31, getReg s 8, s.pc)) =
      .ok (0, 4194308, 0) ∧ toInt32 (simState0.pc + 4) ≠ 0 := by
  exact ⟨rfl, by decide⟩

/-- C6 (amended): `jal` and taken `bltzal`/`bgezal` write the link
address PC+4 into register 31 before redirecting control, but `jalr`
writes the link address into the register named by its `rd` field — which
is register 31 only for the conventional `jalr $ra, rs` encoding — and
then jumps to the value read from `rs` after that write. -/
theorem c6_amended_link_register
    (s1 s2 s3 s4 : SimState) (w1 w2 w3 w4 : Int)
    (hop1 : opcodeOf w1 = 3)
    (hop2 : opcodeOf w2 = 0) (hf2 : functOf w2 = 9)
    (hop3 : opcodeOf w3 = 1) (hrt3 : rtOf w3 = 0x10)
    (hneg : getReg s3 (rsOf w3) < 0)
    (hop4 : opcodeOf w4 = 1) (hrt4 : rtOf w4 = 0x11)
    (hpos : getReg s4 (rsOf w4) ≥ 0)
    (hlen1 : s1.registers.length = 32) (hlen2 : s2.registers.length = 32)
    (hlen3 : s3.registers.length = 32) (hlen4 : s4.registers.length = 32) :
    (decodeAndExecute s1 w1 =
        .ok { s1.setReg 31 (s1.pc + 4) with
                pc := jsOr (jsAnd (s1.pc + 4) 0xF0000000)
                        (jsShl (Int.ofNat (addressOf w1)) 2) } ∧
      getReg (s1.setReg 31 (s1.pc + 4)) 31 = toInt32 (s1.pc + 4)) ∧
    (decodeAndExecute s2 w2 =
        .ok { s2.setReg (rdOf w2) (s2.pc + 4) with
                pc := getReg (s2.setReg (rdOf w2) (s2.pc + 4)) (rsOf w2) } ∧
      getReg (s2.setReg (rdOf w2) (s2.pc + 4)) (rdOf w2) = toInt32 (s2.pc + 4)) ∧
    (decodeAndExecute s3 w3 =
        .ok { s3.setReg 31 (s3.pc + 4) with
                pc := s3.pc + 4 + jsShl (signExtImmOf w3) 2 } ∧
      getReg (s3.setReg 31 (s3.pc + 4)) 31 = toInt32 (s3.pc + 4)) ∧
    (decodeAndExecute s4 w4 =
        .ok { s4.setReg 31 (s4.pc + 4) with
                pc := s4.pc + 4 + jsShl (signExtImmOf w4) 2 } ∧
      getReg (s4.setReg 31 (s4.pc + 4)) 31 = toInt32 (s4.pc + 4)) := by
  refine ⟨⟨?_, ?_⟩, ⟨?_, ?_⟩, ⟨?_, ?_⟩, ⟨?_, ?_⟩⟩
  · simp only [decodeAndExecute, hop1]
    norm_num
  · exact getReg_setReg_self s1 31 _ (by rw [hlen1]; norm_num)
  · simp only [decodeAndExecute, hop2, hf2]
    norm_num
  · exact getReg_setReg_self s2 (rdOf w2) _ (by rw [hlen2]; exact rdOf_lt32 w2)
  · simp only [decodeAndExecute, hop3, hrt3]
    norm_num [hneg]
  · exact getReg_setReg_self s3 31 _ (by rw [hlen3]; norm_num)
  · simp only [decodeAndExecute, hop4, hrt4]
    norm_num [hpos]
  · exact getReg_setReg_self s4 31 _ (by rw [hlen4]; norm_num)

theorem c6_amended_link_register_witness :
    (decodeAndExecute simState0 0x0C000000 =
        .ok { simState0.setReg 31 (simState0.pc + 4) with
                pc := jsOr (jsAnd (simState0.pc + 4) 0xF0000000)
                        (jsShl (Int.ofNat (addressOf 0x0C000000)) 2) } ∧
      getReg (simState0.setReg 31 (simState0.pc + 4)) 31 =
        toInt32 (simState0.pc + 4)) ∧
    (decodeAndExecute simState0 0x01204009 =
        .ok { simState0.setReg (rdOf 0x01204009) (simState0.pc + 4) with
                pc := getReg (simState0.setReg (rdOf 0x01204009) (simState0.pc + 4))
                        (rsOf 0x01204009) } ∧
      getReg (simState0.setReg (rdOf 0x01204009) (simState0.pc + 4))
          (rdOf 0x01204009) = toInt32 (simState0.pc + 4)) ∧
    (decodeAndExecute negRegState 0x05300004 =
        .ok { negRegState.setReg 31 (negRegState.pc + 4) with
                pc := negRegState.pc + 4 + jsShl (signExtImmOf 0x05300004) 2 } ∧
      getReg (negRegState.setReg 31 (negRegState.pc + 4)) 31 =
        toInt32 (negRegState.pc + 4)) ∧
    (decodeAndExecute simState0 0x05310004 =
        .ok { simState0.setReg 31 (simState0.pc + 4) with
                pc := simState0.pc + 4 + jsShl (signExtImmOf 0x05310004) 2 } ∧
      getReg (simState0.setReg 31 (simState0.pc + 4)) 31 =
        toInt32 (simState0.pc + 4)) :=
  c6_amended_link_register simState0 simState0 negRegState simState0
    0x0C000000 0x01204009 0x05300004 0x05310004
    (by decide) (by decide) (by decide) (by decide) (by decide) (by decide)
    (by decide) (by decide) (by decide) (by decide) (by decide) (by decide)
    (by decide)

/-- C8: Refuted as stated.  On `".data\n.byte 1, 300"` the second
argument 300 lies outside [-128, 255] — its range check fails, as the
second conjunct shows — yet `validate` returns zero diagnostics: the
`.byte` case returns unconditionally after checking only the first
argument, so an offending argument in any later position is never
reported at all, rather than being reported when it comes first. -/
theorem c8_counterexample :
    pipelineValidate ".data\n.byte 1, 300" = some [] ∧
    numCheckFails ['3', '0', '0'] (-128) 255 = true := by
  exact ⟨rfl, rfl⟩

/-- C8 (amended): the data-section `.byte` check inspects only the first
argument.  It reports "Invalid byte value in .byte directive" on the span
of the first argument token exactly when that literal fails the
[-128, 255] range check, and returns without examining the remaining
arguments, whose contents cannot influence the result. -/
theorem c8_amended_byte_first_arg_only (source : List Char)
    (startP endP : Position) (op : Token) (a0 : DirArg)
    (restArgs : List DirArg) (t0 : Token) (errors : List Err)
    (hname : sliceStr source op.start.offset op.endPos.offset = ".byte")
    (h0 : a0.tokens.head? = some t0) :
    validateDirectiveV source .DATA startP endP op (a0 :: restArgs) errors =
      some (.DATA,
        errors ++
          (if numCheckFails (lexemeOf source t0) (-128) 255 then
            [⟨t0.start, t0.endPos, "Invalid byte value in .byte directive"⟩]
          else [])) := by
  unfold validateDirectiveV
  rw [hname]
  rw [if_pos rfl, if_neg (by decide)]
  simp only [h0, Option.some_bind]
  by_cases hc : numCheckFails (lexemeOf source t0) (-128) 255
  · simp [hc]
  · simp [hc]

theorem c8_amended_byte_first_arg_only_witness :
    sliceStr byteSrc byteOpTok.start.offset byteOpTok.endPos.offset = ".byte" ∧
    byteArg0.tokens.head? = some byteArgTok ∧
    validateDirectiveV byteSrc .DATA ⟨0, 0⟩ ⟨9, 0⟩ byteOpTok (byteArg0 :: []) [] =
      some (.DATA,
        [] ++
          (if numCheckFails (lexemeOf byteSrc byteArgTok) (-128) 255 then
            [⟨byteArgTok.start, byteArgTok.endPos, "Invalid byte value in .byte directive"⟩]
          else [])) :=
  ⟨by decide, rfl,
   c8_amended_byte_first_arg_only byteSrc ⟨0, 0⟩ ⟨9, 0⟩ byteOpTok byteArg0 [] byteArgTok []
     (by decide) rfl⟩
